import Mathlib

/-!
Verification development for the ST-debugger core: a shallow embedding of
the Structured Text parser (`src/server/services/stParser.ts`) and of the
static-analysis engine (`src/server/services/analysisService.ts`), together
with theorems settling the specification claims about them.

Conventions of the embedding:
* JavaScript strings are modelled as `List Char` (`Str`); every string
  helper (`trim`, `includes`, `split`, `replace`, ...) is implemented below
  with the semantics of the corresponding JS method.
* The handful of regular expressions the source uses are implemented as
  dedicated matching functions; each one documents the regex it embeds and
  the (leftmost-match, greedy/lazy) semantics it realises.
* The recursive-descent expression parser of the source can call itself on
  an unchanged input (its fallback path); the embedding therefore threads
  an explicit fuel argument: `none` at every fuel value models a
  non-terminating (stack-overflowing) run.
* `Date`/`Date.now()` values are modelled by an explicit `now : Nat`
  parameter; issue confidences, which in the source are floating-point
  numbers that are all exact multiples of 1/100 in [0,1], are represented
  scaled by 100 as naturals (0.8 becomes 80), which keeps every comparison
  exact and kernel-computable.
-/

namespace STDebugger

/-- JavaScript strings, modelled as lists of characters. -/
abbrev Str := List Char

/-- Whitespace as recognised by the JS `trim`/`\s` class (ASCII subset; the
source texts in this repository are ASCII). -/
def isJsWs (c : Char) : Bool :=
  c = ' ' || c = '\t' || c = '\n' || c = '\r' || c = '\x0b' || c = '\x0c'

/-- `String.prototype.trim`: strip whitespace from both ends. -/
def jsTrim (s : Str) : Str :=
  ((s.dropWhile isJsWs).reverse.dropWhile isJsWs).reverse

/-- Does `s` start with `pre` (`String.prototype.startsWith`)? -/
def startsWithStr : Str → Str → Bool
  | _, [] => true
  | [], _ :: _ => false
  | c :: s, p :: ps => c = p && startsWithStr s ps

/-- Case-insensitive `startsWith` (ASCII case folding), used for the
case-insensitive (`/i`) regexes of the source. -/
def startsWithCI : Str → Str → Bool
  | _, [] => true
  | [], _ :: _ => false
  | c :: s, p :: ps => c.toUpper = p.toUpper && startsWithCI s ps

/-- `String.prototype.includes`. -/
def jsIncludes : Str → Str → Bool
  | s, pat =>
    startsWithStr s pat ||
      match s with
      | [] => false
      | _ :: t => jsIncludes t pat

/-- Index of the first occurrence of `pat` (`String.prototype.indexOf`,
`none` for `-1`). -/
def indexOfStr (pat : Str) : Str → Option Nat
  | [] => if startsWithStr [] pat then some 0 else none
  | c :: t =>
    if startsWithStr (c :: t) pat then some 0
    else (indexOfStr pat t).map (· + 1)

/-- Index of the first case-insensitive occurrence of `pat`. -/
def indexOfCI (pat : Str) : Str → Option Nat
  | [] => if startsWithCI [] pat then some 0 else none
  | c :: t =>
    if startsWithCI (c :: t) pat then some 0
    else (indexOfCI pat t).map (· + 1)

/-- Fuel-driven worker for `splitOnStr` (the fuel strictly exceeds the
length of the string, so it never runs out; it only makes the recursion
structural so that the kernel can evaluate it). -/
def splitOnStrF (sep : Str) : Nat → Str → List Str
  | 0, s => [s]
  | n + 1, s =>
    match indexOfStr sep s with
    | none => [s]
    | some i => s.take i :: splitOnStrF sep n (s.drop (i + sep.length))

/-- `String.prototype.split` with a non-empty string separator. -/
def splitOnStr (sep s : Str) : List Str :=
  splitOnStrF sep (s.length + 1) s

/-- `String.prototype.replace` with a plain-string pattern: replace the
first occurrence only. -/
def replaceFirst (s pat rep : Str) : Str :=
  match indexOfStr pat s with
  | none => s
  | some i => s.take i ++ rep ++ s.drop (i + pat.length)

/-- Fuel-driven worker for `replaceAllStr`. -/
def replaceAllF (pat rep : Str) : Nat → Str → Str
  | 0, s => s
  | n + 1, s =>
    match indexOfStr pat s with
    | none => s
    | some i => s.take i ++ rep ++ replaceAllF pat rep n (s.drop (i + pat.length))

/-- Global string replacement (a `/g` regex with a literal pattern):
matches are found left to right and a replacement is not rescanned. -/
def replaceAllStr (s pat rep : Str) : Str :=
  replaceAllF pat rep (s.length + 1) s

/-- ASCII upper-casing (`String.prototype.toUpperCase` on ASCII input). -/
def toUpperStr (s : Str) : Str := s.map Char.toUpper

/-- Join a list of strings with a separator (`Array.prototype.join`). -/
def joinWith (sep : Str) : List Str → Str
  | [] => []
  | [x] => x
  | x :: y :: t => x ++ sep ++ joinWith sep (y :: t)

/-- `Array.prototype.includes` / `Set.prototype.has` on decidable-equality
elements. -/
def jsIncludesElem [DecidableEq α] (l : List α) (x : α) : Bool :=
  l.any (fun y => y = x)

/-- Worker for `dedupFirst`, carrying the elements already emitted. -/
def dedupFirstGo [DecidableEq α] (seen : List α) : List α → List α
  | [] => []
  | x :: t =>
    if jsIncludesElem seen x then dedupFirstGo seen t
    else x :: dedupFirstGo (seen ++ [x]) t

/-- First-occurrence deduplication: the order in which `Array.from` lists a
JS `Set` built by repeated insertion. -/
def dedupFirst [DecidableEq α] (l : List α) : List α := dedupFirstGo [] l

/-- The `\w` character class `[A-Za-z0-9_]`. -/
def isWordChar (c : Char) : Bool := c.isAlphanum || c = '_'

/-! ## The preprocessor (`preprocessContent`)

`preprocessContent` applies, in order: removal of `//` line comments
(`/\/\/.*$/gm`), removal of `(* ... *)` block comments
(`/\(\*[\s\S]*?\*\)/g`), CRLF normalisation (`/\r\n/g` to `\n`), collapsing
of blank runs (`/\n\s*\n\s*\n/g` to `\n\n`), and a final `trim`. -/

/-- Fuel-driven worker for `stripLineComments`: once `//` is seen,
characters are dropped up to (excluding) the next line terminator, because
`.` in the JS regex matches neither `\n` nor `\r`. -/
def stripLineCommentsF : Nat → Str → Str
  | 0, s => s
  | n + 1, s =>
    match s with
    | [] => []
    | c :: t =>
      if startsWithStr (c :: t) "//".toList then
        stripLineCommentsF n ((c :: t).dropWhile (fun d => ¬ (d = '\n' || d = '\r')))
      else c :: stripLineCommentsF n t

/-- `processed.replace(/\/\/.*$/gm, '')`: on every line, cut from the first
`//` to the end of the line. -/
def stripLineComments (s : Str) : Str := stripLineCommentsF (s.length + 1) s

/-- Fuel-driven worker for `stripBlockComments`. On `(*`, the lazy
`[\s\S]*?` makes the match end at the first following `*)`; with no closing
`*)` there is no match and the text is kept. -/
def stripBlockCommentsF : Nat → Str → Str
  | 0, s => s
  | n + 1, s =>
    match indexOfStr "(*".toList s with
    | none => s
    | some i =>
      match indexOfStr "*)".toList (s.drop (i + 2)) with
      | none => s
      | some j => s.take i ++ stripBlockCommentsF n (s.drop (i + 2 + j + 2))

/-- `processed.replace(/\(\*[\s\S]*?\*\)/g, '')`. -/
def stripBlockComments (s : Str) : Str := stripBlockCommentsF (s.length + 1) s

/-- Length of the longest whitespace prefix of `s`. -/
def wsRunLength (s : Str) : Nat := (s.takeWhile isJsWs).length

/-- Index (within the whitespace run `r`) just past the last `\n` of `r`,
or `none` when `r` holds fewer than `k` newline characters. Used to realise
the greedy backtracking of `/\n\s*\n\s*\n/`. -/
def lastNewlinePos (r : Str) : Option Nat :=
  let idxs := (List.range r.length).filter (fun i => r.getD i ' ' = '\n')
  idxs.getLast?

/-- Fuel-driven worker for `collapseBlankRuns`, scanning left to right.

`/\n\s*\n\s*\n/g` can only match inside a maximal whitespace run that
starts with `\n` and contains at least three newlines; greedy backtracking
then extends the match exactly to the last `\n` of the run, and the global
replacement continues after it. -/
def collapseBlankRunsF : Nat → Str → Str
  | 0, s => s
  | n + 1, s =>
    match s with
    | [] => []
    | c :: t =>
      if c = '\n' then
        let run := (c :: t).takeWhile isJsWs
        if (run.filter (fun d => d = '\n')).length ≥ 3 then
          match lastNewlinePos run with
          | some j => '\n' :: '\n' :: collapseBlankRunsF n ((c :: t).drop (j + 1))
          | none => c :: collapseBlankRunsF n t
        else c :: collapseBlankRunsF n t
      else c :: collapseBlankRunsF n t

/-- `processed.replace(/\n\s*\n\s*\n/g, '\n\n')`. -/
def collapseBlankRuns (s : Str) : Str := collapseBlankRunsF (s.length + 1) s

/-- `STParser.preprocessContent`. -/
def preprocessContent (content : Str) : Str :=
  let p1 := stripLineComments content
  let p2 := stripBlockComments p1
  let p3 := replaceAllStr p2 "\r\n".toList "\n".toList
  let p4 := collapseBlankRuns p3
  jsTrim p4

/-! ## Data model (`shared/types.ts`) -/

/-- `POUCategory` of `shared/types.ts`. -/
inductive POUCategory where
  | PROGRAM | FUNCTION_BLOCK | FUNCTION
deriving DecidableEq

/-- `VariableScope` of `shared/types.ts`. -/
inductive VariableScope where
  | LOCAL | GLOBAL | INPUT | OUTPUT | TEMP
deriving DecidableEq

/-- The dynamic value `parseInitialValue` produces (`boolean`, integer
`number`, fractional `number`, or string). A fractional literal
`intDigits.fracDigits` is kept exactly as `mantissa / 10 ^ scale`; no claim
inspects such a value, so IEEE rounding is not modelled. -/
inductive STValue where
  | bool (b : Bool)
  | int (i : Int)
  | float (mantissa : Int) (scale : Nat)
  | str (s : Str)
deriving DecidableEq

/-- `Variable` of `shared/types.ts` (the optional `address` field is never
written by the parser and is omitted). -/
structure Variable where
  name : Str
  dataType : Str
  scope : VariableScope
  isConstant : Bool
  initialValue : Option STValue
  description : Option Str
deriving DecidableEq

/-- `ASTNodeType` of `shared/types.ts` (the members the parser can emit,
plus the declaration kinds used for the synthetic root). -/
inductive ASTNodeType where
  | PROGRAM | FUNCTION_BLOCK | FUNCTION
  | VAR_DECLARATION | ASSIGNMENT | IF_STATEMENT
  | FOR_LOOP | WHILE_LOOP | FUNCTION_CALL
  | VARIABLE | LITERAL | BINARY_EXPRESSION
  | CASE_STATEMENT | REPEAT_LOOP
deriving DecidableEq

/-! `ASTNode` of `shared/types.ts`. `children` is a nested list, modelled
with a mutual inductive so that every traversal is structurally recursive
(and hence kernel-computable). The `value` field holds only strings
wherever the parser writes it, so it is typed `Option Str`; the unused
`dataType` field is omitted. -/
mutual
/-- One AST node, as in `shared/types.ts`. -/
inductive ASTNode where
  | mk (type : ASTNodeType) (name : Option Str) (value : Option Str)
       (children : ASTNodeList) (lineNumber : Nat) (columnNumber : Nat)
       (scope : Str)
/-- A list of AST nodes (the `children` array). -/
inductive ASTNodeList where
  | nil
  | cons (hd : ASTNode) (tl : ASTNodeList)
end

def ASTNode.type : ASTNode → ASTNodeType
  | .mk t _ _ _ _ _ _ => t

def ASTNode.name : ASTNode → Option Str
  | .mk _ n _ _ _ _ _ => n

def ASTNode.value : ASTNode → Option Str
  | .mk _ _ v _ _ _ _ => v

def ASTNode.children : ASTNode → ASTNodeList
  | .mk _ _ _ ch _ _ _ => ch

def ASTNode.lineNumber : ASTNode → Nat
  | .mk _ _ _ _ ln _ _ => ln

/-- Build an `ASTNodeList` from a `List ASTNode`. -/
def ASTNodeList.ofList : List ASTNode → ASTNodeList
  | [] => .nil
  | x :: t => .cons x (ASTNodeList.ofList t)

def ASTNodeList.toList : ASTNodeList → List ASTNode
  | .nil => []
  | .cons x t => x :: ASTNodeList.toList t

/-! Generic pre-order collector over the AST: emit `f` at a node, then
recurse into the children left to right. Each recursive analysis (and the
dependency/instance extraction) of the source is an instance of this
shape: a per-node emission followed by `node.children.forEach(recurse)`. -/
mutual
/-- Pre-order collection over one node. -/
def ASTNode.collect (f : ASTNode → List α) : ASTNode → List α
  | .mk t n v ch ln col sc => f (.mk t n v ch ln col sc) ++ ASTNodeList.collect f ch
/-- Pre-order collection over a node list. -/
def ASTNodeList.collect (f : ASTNode → List α) : ASTNodeList → List α
  | .nil => []
  | .cons h t => ASTNode.collect f h ++ ASTNodeList.collect f t
end

/-- `FBInstance` of `shared/types.ts` (the optional `count` field is never
written by the parser and is omitted). -/
structure FBInstance where
  name : Str
  type : Str
  lineNumber : Nat
deriving DecidableEq

/-- `POUFile` of `shared/types.ts`. `lastModified` (a `Date`) is modelled
as the `now : Nat` timestamp the construction receives. -/
structure POUFile where
  id : Str
  name : Str
  type : POUCategory
  filePath : Str
  content : Str
  ast : ASTNode
  «variables» : List Variable
  dependencies : List Str
  instances : List FBInstance
  version : Str
  lastModified : Nat
  description : Option Str

/-! ## Regex matchers used by the parser -/

/-- One match attempt of `ST_PATTERNS.POU_DECLARATION`, i.e.
`/(PROGRAM|FUNCTION_BLOCK|FUNCTION)\s+(\w+)/i`, at the current position:
the alternatives are tried in order (case-insensitively), then at least one
whitespace character and a maximal non-empty `\w+` run (the name) must
follow. -/
def matchPOUAt (s : Str) : Option (POUCategory × Str) :=
  let alts : List (Str × POUCategory) :=
    [("PROGRAM".toList, .PROGRAM), ("FUNCTION_BLOCK".toList, .FUNCTION_BLOCK),
     ("FUNCTION".toList, .FUNCTION)]
  alts.firstM fun (kw, cat) =>
    if startsWithCI s kw then
      let rest := s.drop kw.length
      let ws := rest.takeWhile isJsWs
      let name := (rest.drop ws.length).takeWhile isWordChar
      if ws ≠ [] ∧ name ≠ [] then some (cat, name) else none
    else none

/-- Leftmost match of the POU-declaration regex: the match attempt is made
at every position from the left; the result also carries `match.index`. -/
def matchPOUDecl : Str → Nat → Option (POUCategory × Str × Nat)
  | [], _ => none
  | c :: t, i =>
    match matchPOUAt (c :: t) with
    | some (cat, name) => some (cat, name, i)
    | none => matchPOUDecl t (i + 1)

/-- One match attempt of the section regex
`/(VAR(?:_INPUT|_OUTPUT|_TEMP|_GLOBAL)?)\s*([\s\S]*?)\s*END_VAR/gi` at the
current position. The optional suffix alternatives are tried in order
before the empty one; the greedy leading `\s*` strips whitespace after the
keyword; the lazy `[\s\S]*?` ends at the first following `END_VAR`, with
the `\s*` before `END_VAR` absorbing the whitespace suffix of the content.
Returns the upper-cased section keyword (the source immediately
upper-cases `match[1]`), the content, and the text after `END_VAR` (where
the global scan resumes). -/
def matchVarSectionAt (s : Str) : Option (Str × Str × Str) :=
  if startsWithCI s "VAR".toList then
    let sufs : List Str :=
      ["_INPUT".toList, "_OUTPUT".toList, "_TEMP".toList, "_GLOBAL".toList]
    let suffix := (sufs.filter (fun suf => startsWithCI (s.drop 3) suf)).headD []
    let kwLen := 3 + suffix.length
    let rest1 := s.drop kwLen
    let rest2 := rest1.drop (rest1.takeWhile isJsWs).length
    match indexOfCI "END_VAR".toList rest2 with
    | none => none
    | some e =>
      let content := ((rest2.take e).reverse.dropWhile isJsWs).reverse
      some (toUpperStr ("VAR".toList ++ suffix), content, rest2.drop (e + 7))
  else none

/-- Fuel-driven global scan with the section regex (`regex.exec` in a
loop): at each position a match attempt is made; after a match the scan
resumes at `lastIndex`, i.e. right after the consumed `END_VAR`. -/
def matchVarSectionsF : Nat → Str → List (Str × Str)
  | 0, _ => []
  | _ + 1, [] => []
  | n + 1, c :: t =>
    match matchVarSectionAt (c :: t) with
    | some (kw, content, rest) => (kw, content) :: matchVarSectionsF n rest
    | none => matchVarSectionsF n t

/-- All matches of the `VAR ... END_VAR` section regex, in order. -/
def matchVarSections (s : Str) : List (Str × Str) :=
  matchVarSectionsF (s.length + 1) s

/-- The tail `\s*;?\s*(?:\/\/\s*(.*))?$` of the declaration-line regex:
returns the optional comment group, or `none` when the tail does not
match. -/
def matchVarDeclTail (r : Str) : Option (Option Str) :=
  let r1 := r.dropWhile isJsWs
  let r2 := match r1 with
    | ';' :: t => t
    | _ => r1
  let r3 := r2.dropWhile isJsWs
  match r3 with
  | [] => some none
  | '/' :: '/' :: rest => some (some (rest.dropWhile isJsWs))
  | _ => none

/-- The variable-declaration line regex of `parseVariableSection`:
`/^(\w+)\s*:\s*([^:;]+)(?:\s*:\s*=\s*([^;]+))?\s*;?\s*(?:\/\/\s*(.*))?$/`.

Greedy runs are taken maximally; this is without loss of generality here:
`\w+` is followed by `\s*:` (a shorter `\w+` leaves a word character that
matches neither), and `[^:;]+` cannot cross the `:` of a following `:=`.
Returns `(name, rawType, rawInitialValue?, comment?)`. -/
def matchVarDecl (line : Str) : Option (Str × Str × Option Str × Option Str) :=
  let name := line.takeWhile isWordChar
  if name = [] then none else
  let r1 := (line.drop name.length).dropWhile isJsWs
  match r1 with
  | ':' :: r2 =>
    let r3 := r2.dropWhile isJsWs
    let ty := r3.takeWhile (fun c => ¬ (c = ':' || c = ';'))
    if ty = [] then none else
    let r4 := r3.drop ty.length
    -- optional group `(?:\s*:\s*=\s*([^;]+))?`: since the greedy type run
    -- only stops at `:`, `;` or the end, the group applies exactly when a
    -- `:` follows; when it then fails to find `=`, the whole line fails
    -- (the remaining tail `\s*;?\s*...$` cannot start with `:`).
    match r4 with
    | ':' :: r5 =>
      let r6 := r5.dropWhile isJsWs
      match r6 with
      | '=' :: r7 =>
        let r8 := r7.dropWhile isJsWs
        let v := r8.takeWhile (fun c => ¬ c = ';')
        if v = [] then none else
        (matchVarDeclTail (r8.drop v.length)).map fun comment =>
          (name, ty, some v, comment)
      | _ => none
    | _ =>
      (matchVarDeclTail r4).map fun comment => (name, ty, none, comment)
  | _ => none

/-- `ST_PATTERNS.FOR_LOOP`, i.e. `/FOR\s+(\w+)\s*:=\s*(\d+)\s+TO\s+(\d+)/i`,
attempted at one position. -/
def matchForHeaderAt (s : Str) : Option (Str × Str × Str) :=
  if startsWithCI s "FOR".toList then
    let r1 := s.drop 3
    let ws1 := r1.takeWhile isJsWs
    let v := (r1.drop ws1.length).takeWhile isWordChar
    if ws1 = [] ∨ v = [] then none else
    let r2 := (r1.drop (ws1.length + v.length)).dropWhile isJsWs
    match r2 with
    | ':' :: '=' :: r3 =>
      let r4 := r3.dropWhile isJsWs
      let d1 := r4.takeWhile Char.isDigit
      if d1 = [] then none else
      let r5 := r4.drop d1.length
      let ws2 := r5.takeWhile isJsWs
      if ws2 = [] then none else
      let r6 := r5.drop ws2.length
      if startsWithCI r6 "TO".toList then
        let r7 := r6.drop 2
        let ws3 := r7.takeWhile isJsWs
        if ws3 = [] then none else
        let d2 := (r7.drop ws3.length).takeWhile Char.isDigit
        if d2 = [] then none else some (v, d1, d2)
      else none
    | _ => none
  else none

/-- Leftmost match of the FOR-header regex anywhere in the line. -/
def matchForHeader : Str → Option (Str × Str × Str)
  | [] => none
  | c :: t =>
    match matchForHeaderAt (c :: t) with
    | some r => some r
    | none => matchForHeader t

/-- Search for the shortest non-empty `(.+?)` prefix of `body` that is
followed by `\s+kw2` (case-insensitively); `.` does not cross a newline. -/
def matchKwPairBody (kw2 : Str) : Str → Str → Option Str
  | [], _ => none
  | c :: t, acc =>
    if c = '\n' then none else
    let acc' := acc ++ [c]
    let ws := t.takeWhile isJsWs
    if ws ≠ [] ∧ startsWithCI (t.drop ws.length) kw2 then some acc'
    else matchKwPairBody kw2 t acc'

/-- A keyword-pair condition regex such as `/IF\s+(.+?)\s+THEN/i`
(`WHILE...DO`, `CASE...OF` analogously), attempted at one position: after
the keyword and its whitespace the lazy `(.+?)` takes the shortest
non-empty text that is followed by `\s+` and the closing keyword. The
implementation takes the leading `\s+` maximally and then searches the
smallest condition end; this covers every non-pathological line (`.` can
still match further whitespace inside the condition). -/
def matchKwPairAt (kw1 kw2 s : Str) : Option Str :=
  if startsWithCI s kw1 then
    let r1 := s.drop kw1.length
    let ws1 := r1.takeWhile isJsWs
    if ws1 = [] then none else
    matchKwPairBody kw2 (r1.drop ws1.length) []
  else none

/-- Leftmost match of a keyword-pair condition regex. -/
def matchKwPair (kw1 kw2 : Str) : Str → Option Str
  | [] => none
  | c :: t =>
    match matchKwPairAt kw1 kw2 (c :: t) with
    | some r => some r
    | none => matchKwPair kw1 kw2 t

/-- The REPEAT regex `/REPEAT\s+(.+?)\s+UNTIL\s+(.+?)(?:\s*;)?$/i`,
attempted at one position: the first lazy group ends before `\s+UNTIL`,
the second lazy group runs to the end of the line minus an optional
whitespace-then-semicolon suffix (the `;`, when present, must be the last
character). -/
def matchRepeatAt (s : Str) : Option (Str × Str) :=
  if startsWithCI s "REPEAT".toList then
    let r1 := s.drop 6
    let ws1 := r1.takeWhile isJsWs
    if ws1 = [] then none else
    match matchKwPairBody "UNTIL".toList (r1.drop ws1.length) [] with
    | none => none
    | some body =>
      let afterBody := (r1.drop ws1.length).drop body.length
      let r2 := afterBody.dropWhile isJsWs
      let r3 := r2.drop 5
      let ws2 := r3.takeWhile isJsWs
      if ws2 = [] then none else
      let tail := r3.drop ws2.length
      let tailTrim :=
        match (tail.reverse.dropWhile isJsWs) with
        | ';' :: rest => (rest.dropWhile isJsWs).reverse
        | _ => tail
      if tailTrim = [] ∨ jsIncludes tailTrim "\n".toList then none
      else some (body, tailTrim)
  else none

/-- Leftmost match of the REPEAT regex. -/
def matchRepeat : Str → Option (Str × Str)
  | [] => none
  | c :: t =>
    match matchRepeatAt (c :: t) with
    | some r => some r
    | none => matchRepeat t

/-- `ST_KEYWORDS` of `shared/constants`: the reserved keywords and
built-in function names. -/
def ST_KEYWORDS : List Str :=
  ["IF", "THEN", "ELSIF", "ELSE", "END_IF",
   "FOR", "TO", "BY", "DO", "END_FOR",
   "WHILE", "DO", "END_WHILE",
   "REPEAT", "UNTIL", "END_REPEAT",
   "CASE", "OF", "ELSE", "END_CASE",
   "VAR", "VAR_INPUT", "VAR_OUTPUT", "VAR_TEMP", "VAR_GLOBAL", "END_VAR",
   "PROGRAM", "FUNCTION_BLOCK", "FUNCTION", "END_PROGRAM",
   "END_FUNCTION_BLOCK", "END_FUNCTION",
   "RETURN", "EXIT", "CONTINUE",
   "TRUE", "FALSE", "NOT", "AND", "OR", "XOR",
   "MOD", "DIV", "SEL", "MUX", "MAX", "MIN",
   "LIMIT", "MOVE", "ADR", "ADRINST", "BITADR", "INDEX",
   "SIZEOF", "SHL", "SHR", "ROL", "ROR",
   "ROUND", "TRUNC", "SIN", "COS", "TAN", "ASIN", "ACOS", "ATAN",
   "EXP", "LN", "LOG", "SQRT"].map String.toList

/-! ## The ST parser (`stParser.ts`) -/

/-- The parser context scope: `this.context.currentScope` is reset to
`'global'` at the start of every parse and never reassigned, so every node
carries this scope label. -/
def gscope : Str := "global".toList

/-- The numeric-literal test `/^-?\d+(\.\d+)?$/`. -/
def isNumericLit (s : Str) : Bool :=
  let body := match s with
    | '-' :: t => t
    | t => t
  let ds := body.takeWhile Char.isDigit
  ds ≠ [] &&
    (match body.drop ds.length with
     | [] => true
     | '.' :: fr => fr ≠ [] && fr.all Char.isDigit
     | _ => false)

/-- The integer-literal test `/^-?\d+$/`. -/
def isIntLit (s : Str) : Bool :=
  let body := match s with
    | '-' :: t => t
    | t => t
  body ≠ [] && body.all Char.isDigit

/-- The decimal-literal test `/^-?\d+\.\d+$/`. -/
def isFloatLit (s : Str) : Bool :=
  let body := match s with
    | '-' :: t => t
    | t => t
  let ds := body.takeWhile Char.isDigit
  ds ≠ [] &&
    (match body.drop ds.length with
     | '.' :: fr => fr ≠ [] && fr.all Char.isDigit
     | _ => false)

/-- The identifier test `/^[a-zA-Z_][a-zA-Z0-9_]*$/`, used both by
`parseExpression` (a bare identifier becomes a Variable node) and by the
naming-convention analysis pass. -/
def matchesIdent (s : Str) : Bool :=
  match s with
  | [] => false
  | c :: t => (c.isAlpha || c = '_') && t.all isWordChar

/-- `STParser.isLiteral`. -/
def isLiteral (e : Str) : Bool :=
  (match e with
   | '\'' :: _ => e.getLast? = some '\''
   | '"' :: _ => e.getLast? = some '"'
   | _ => false) ||
  isNumericLit e ||
  toUpperStr e = "TRUE".toList || toUpperStr e = "FALSE".toList ||
  startsWithStr (toUpperStr e) "T#".toList ||
  startsWithStr (toUpperStr e) "TIME#".toList

/-- The operator list of `parseBinaryExpression`. -/
def binaryOperators : List Str :=
  ["AND", "OR", "XOR", "+", "-", "*", "/", "MOD", "DIV",
   "=", "<>", "<", ">", "<=", ">="].map String.toList

/-- The operator-substring list of `isBinaryExpression` — note that it is
formatted differently from `parseBinaryExpression`'s list: `<>`, `<=` and
`>=` appear without a leading space. -/
def isBinaryOperatorPatterns : List Str :=
  [" AND ", " OR ", " XOR ", " + ", " - ", " * ", " / ", " MOD ", " DIV ",
   " = ", "<> ", " < ", " > ", "<= ", ">= "].map String.toList

/-- `STParser.isBinaryExpression`. -/
def isBinaryExpression (e : Str) : Bool :=
  isBinaryOperatorPatterns.any (fun op => jsIncludes e op)

/-- The `for (const op of operators)` loop of `parseBinaryExpression`,
parameterised by the recursive call `rec` into `parseExpression` (given
one fuel less by the caller). For the first operator whose spaced form
occurs in `e` and splits it into exactly two parts, a BinaryExpression
node is built from the recursively parsed parts; if an operator occurs but
does not split into two parts the loop simply continues; after the loop
the code falls back to `return this.parseExpression(expression)` on the
unchanged string — the infinite mutual recursion modelled by `rec e`. -/
def tryBinaryOps (rec : Str → Option ASTNode) (ln : Nat) :
    List Str → Str → Option ASTNode
  | [], e => rec e
  | op :: rest, e =>
    let sep := ' ' :: (op ++ [' '])
    if jsIncludes e sep then
      let parts := splitOnStr sep e
      if parts.length = 2 then
        match rec (jsTrim (parts.getD 0 [])), rec (jsTrim (parts.getD 1 [])) with
        | some l, some r =>
          some (.mk .BINARY_EXPRESSION (some op) (some e)
                  (.cons l (.cons r .nil)) ln 1 gscope)
        | _, _ => none
      else tryBinaryOps rec ln rest e
    else tryBinaryOps rec ln rest e

/-- `STParser.parseExpression`, with an explicit fuel for the recursion
depth: a result of `none` at every fuel models a run that never returns
(the JS engine would overflow the stack). `ln` is
`this.context.lineNumber`. -/
def parseExpression : Nat → Nat → Str → Option ASTNode
  | 0, _, _ => none
  | fuel + 1, ln, e0 =>
    let e := jsTrim e0
    if isLiteral e then
      some (.mk .LITERAL none (some e) .nil ln 1 gscope)
    else if matchesIdent e then
      some (.mk .VARIABLE (some e) none .nil ln 1 gscope)
    else if isBinaryExpression e then
      tryBinaryOps (parseExpression fuel ln) ln binaryOperators e
    else
      some (.mk .VARIABLE (some e) none .nil ln 1 gscope)

/-- `STParser.parseBinaryExpression` (entered from `parseExpression`). -/
def parseBinaryExpression (fuel ln : Nat) (e : Str) : Option ASTNode :=
  tryBinaryOps (parseExpression fuel ln) ln binaryOperators e

/-- `STParser.parseAssignment`. The split on `:=` has at least two parts
whenever the line contains `:=` (the only way this function is reached);
the value is the text between the first and the second `:=` (everything
beyond the second is discarded by `parts[1]`), trimmed, with the first
semicolon removed. -/
def parseAssignment (fuel ln : Nat) (line : Str) : Option ASTNode :=
  let parts := splitOnStr ":=".toList line
  let «variable» := jsTrim (parts.getD 0 [])
  let value := replaceFirst (jsTrim (parts.getD 1 [])) ";".toList []
  (parseExpression fuel ln value).map fun rhs =>
    .mk .ASSIGNMENT (some «variable») (some value)
      (.cons (.mk .VARIABLE (some «variable») none .nil ln 1 gscope)
        (.cons rhs .nil)) ln 1 gscope

/-- `STParser.parseIfStatement`: the condition is the `IF...THEN` group
(or `''` when the regex fails) and the single child is its expression
parse. -/
def parseIfStatement (fuel ln : Nat) (line : Str) : Option ASTNode :=
  let condition := (matchKwPair "IF".toList "THEN".toList line).getD []
  (parseExpression fuel ln condition).map fun c =>
    .mk .IF_STATEMENT (some "IF".toList) (some condition)
      (.cons c .nil) ln 1 gscope

/-- `STParser.parseWhileLoop`. -/
def parseWhileLoop (fuel ln : Nat) (line : Str) : Option ASTNode :=
  let condition := (matchKwPair "WHILE".toList "DO".toList line).getD []
  (parseExpression fuel ln condition).map fun c =>
    .mk .WHILE_LOOP (some "WHILE".toList) (some condition)
      (.cons c .nil) ln 1 gscope

/-- `STParser.parseCaseStatement`. -/
def parseCaseStatement (fuel ln : Nat) (line : Str) : Option ASTNode :=
  let expr := (matchKwPair "CASE".toList "OF".toList line).getD []
  (parseExpression fuel ln expr).map fun c =>
    .mk .CASE_STATEMENT (some "CASE".toList) (some expr)
      (.cons c .nil) ln 1 gscope

/-- `STParser.parseRepeatLoop`: the node records the UNTIL condition as its
value and parses it as the single child. -/
def parseRepeatLoop (fuel ln : Nat) (line : Str) : Option ASTNode :=
  let condition := ((matchRepeat line).map (fun p => p.2)).getD []
  (parseExpression fuel ln condition).map fun c =>
    .mk .REPEAT_LOOP (some "REPEAT".toList) (some condition)
      (.cons c .nil) ln 1 gscope

/-- `STParser.parseForLoop`: the FOR-header regex supplies the loop
variable and the bounds; when it fails, the optional-chaining accesses are
`undefined`, making the name `''` and the value the template string
`"undefined TO undefined"`. -/
def parseForLoop (ln : Nat) (line : Str) : Option ASTNode :=
  let nm := match matchForHeader line with
    | some (v, _, _) => v
    | none => []
  let value := match matchForHeader line with
    | some (_, d1, d2) => d1 ++ " TO ".toList ++ d2
    | none => "undefined TO undefined".toList
  some (.mk .FOR_LOOP (some nm) (some value)
    (.cons (.mk .VARIABLE (some nm) none .nil ln 1 gscope) .nil) ln 1 gscope)

/-- The function-call head regex `/^(\w+)\s*\(([^)]*)\)/` of
`parseFunctionCall`: a leading word run, optional whitespace, `(`, then
the greedy `[^)]*` running to the first `)`. -/
def matchCallHead (line : Str) : Option (Str × Str) :=
  let nm := line.takeWhile isWordChar
  if nm = [] then none else
  let r1 := (line.drop nm.length).dropWhile isJsWs
  match r1 with
  | '(' :: r2 =>
    let args := r2.takeWhile (fun c => ¬ c = ')')
    match r2.drop args.length with
    | ')' :: _ => some (nm, args)
    | _ => none
  | _ => none

/-- Parse every argument expression (`args.map(arg => parseExpression)`),
propagating a crash of any of them. -/
def parseArgs (fuel ln : Nat) : List Str → Option (List ASTNode)
  | [] => some []
  | a :: rest =>
    match parseExpression fuel ln a, parseArgs fuel ln rest with
    | some n, some t => some (n :: t)
    | _, _ => none

/-- `STParser.parseFunctionCall`: splits the comma-separated argument text,
parses each argument, and joins the trimmed arguments back with `', '` for
the node value; returns `null` when the head regex fails. -/
def parseFunctionCall (fuel ln : Nat) (line : Str) : Option ASTNode :=
  match matchCallHead line with
  | none => none
  | some (nm, argText) =>
    let args := (splitOnStr ",".toList argText).map jsTrim
    (parseArgs fuel ln args).map fun children =>
      .mk .FUNCTION_CALL (some nm) (some (joinWith ", ".toList args))
        (ASTNodeList.ofList children) ln 1 gscope

/-- The RETURN regex `/RETURN\s*(.+)?/i` of `parseReturnStatement`: after
the (leftmost) `RETURN` and greedy whitespace, the optional group captures
the non-empty rest of the line, and is `undefined` otherwise. -/
def matchReturnValue (line : Str) : Option Str :=
  match indexOfCI "RETURN".toList line with
  | none => none
  | some i =>
    let rest := (line.drop (i + 6)).dropWhile isJsWs
    let g := rest.takeWhile (fun c => ¬ c = '\n')
    if g = [] then none else some g

/-- `STParser.parseReturnStatement`: note that the node type is
`FUNCTION_CALL` with name `RETURN`; with no return value the children list
is empty and the value is `undefined` (modelled `none`). -/
def parseReturnStatement (fuel ln : Nat) (line : Str) : Option ASTNode :=
  match matchReturnValue line with
  | none =>
    some (.mk .FUNCTION_CALL (some "RETURN".toList) none .nil ln 1 gscope)
  | some v =>
    (parseExpression fuel ln v).map fun c =>
      .mk .FUNCTION_CALL (some "RETURN".toList) (some v) (.cons c .nil) ln 1 gscope

/-- `STParser.isFunctionCall`: the line matches `/^(\w+)\s*\(/` and does
not start (upper-cased) with a reserved keyword. -/
def isFunctionCall (line : Str) : Bool :=
  (let nm := line.takeWhile isWordChar
   nm ≠ [] &&
     (match (line.drop nm.length).dropWhile isJsWs with
      | '(' :: _ => true
      | _ => false)) &&
  !(ST_KEYWORDS.any (fun kw => startsWithStr (toUpperStr line) kw))

/-- `STParser.parseLine`: the dispatch order of the source — an `:=`
anywhere wins first, then the statement prefixes, then function calls,
then RETURN; anything else contributes no node (`null`). A `none` result
stands both for `null` and for a crashed parse (the caller catches and
skips either way, except that `null` and a crash are indistinguishable to
it). -/
def parseLine (fuel ln : Nat) (line : Str) : Option ASTNode :=
  if jsIncludes line ":=".toList then parseAssignment fuel ln line
  else if startsWithStr line "IF".toList then parseIfStatement fuel ln line
  else if startsWithStr line "FOR".toList then parseForLoop ln line
  else if startsWithStr line "WHILE".toList then parseWhileLoop fuel ln line
  else if startsWithStr line "CASE".toList then parseCaseStatement fuel ln line
  else if startsWithStr line "REPEAT".toList then parseRepeatLoop fuel ln line
  else if isFunctionCall line then parseFunctionCall fuel ln line
  else if startsWithStr (toUpperStr line) "RETURN".toList then
    parseReturnStatement fuel ln line
  else none

/-- `STParser.generateAST`: parse each trimmed line of the body, skipping
blank and comment lines; a line whose parse returns `null` or throws is
skipped (`try/catch` with a warning). The root is a synthetic `PROGRAM`
node at line 1 whose children are the parsed statements in order. -/
def generateAST (fuel : Nat) (body : Str) : ASTNode :=
  let lines := splitOnStr "\n".toList body
  let children := (lines.enum).flatMap fun (i, rawLine) =>
    let line := jsTrim rawLine
    if line = [] || startsWithStr line "//".toList ||
        startsWithStr line "(*".toList then []
    else
      match parseLine fuel (i + 1) line with
      | some node => [node]
      | none => []
  .mk .PROGRAM none none (ASTNodeList.ofList children) 1 1 gscope

/-- Exact value of a decimal literal `[-]intDigits.fracDigits` as
`mantissa / 10 ^ scale` (see `STValue.float`). -/
def floatOfDecimal (value : Str) : STValue :=
  let neg : Bool := match value with
    | '-' :: _ => true
    | _ => false
  let body := match value with
    | '-' :: t => t
    | t => t
  let ds := body.takeWhile Char.isDigit
  let fr := match body.drop ds.length with
    | '.' :: f => f
    | _ => []
  let mantNat : Nat := Nat.ofDigits 10 (((ds ++ fr).map (fun c => c.toNat - 48)).reverse)
  .float (if neg then - (mantNat : Int) else (mantNat : Int)) fr.length

/-- `STParser.parseInitialValue`: classify an initial-value token as
boolean, integer, fractional number, quoted string (quotes stripped), or
fall back to the raw token. -/
def parseInitialValue (value : Str) : STValue :=
  if value = "TRUE".toList ∨ value = "FALSE".toList then
    .bool (value = "TRUE".toList)
  else if isIntLit value then
    .int (match value with
          | '-' :: ds => - (Nat.ofDigits 10 ((ds.map (fun c => c.toNat - 48)).reverse) : Int)
          | ds => (Nat.ofDigits 10 ((ds.map (fun c => c.toNat - 48)).reverse) : Int))
  else if isFloatLit value then
    floatOfDecimal value
  else if (match value with
           | '\'' :: _ => value.getLast? == some '\''
           | _ => false : Bool) then
    .str ((value.drop 1).dropLast)
  else if (match value with
           | '"' :: _ => value.getLast? == some '"'
           | _ => false : Bool) then
    .str ((value.drop 1).dropLast)
  else .str value

/-- `STParser.mapVarSectionToScope` (the section keyword arrives already
upper-cased; the `|| 'LOCAL'` default is unreachable for the keywords the
section regex can produce but is kept). -/
def mapVarSectionToScope (sectionType : Str) : VariableScope :=
  if sectionType = "VAR".toList then .LOCAL
  else if sectionType = "VAR_INPUT".toList then .INPUT
  else if sectionType = "VAR_OUTPUT".toList then .OUTPUT
  else if sectionType = "VAR_TEMP".toList then .TEMP
  else if sectionType = "VAR_GLOBAL".toList then .GLOBAL
  else .LOCAL

/-- `STParser.parseVariableSection`: every non-blank, non-comment line that
matches the declaration regex yields a variable; a window of the two
preceding raw lines is searched for `VAR CONSTANT` to set `isConstant`;
non-matching lines are silently skipped. -/
def parseVariableSection (sectionContent : Str) (scope : VariableScope) :
    List Variable :=
  let lines := splitOnStr "\n".toList sectionContent
  lines.enum.flatMap fun (i, rawLine) =>
    let line := jsTrim rawLine
    if line = [] || startsWithStr line "//".toList ||
        startsWithStr line "(*".toList then []
    else
      match matchVarDecl line with
      | none => []
      | some (nm, ty, init?, desc?) =>
        let isConst := ((lines.take i).drop (i - 2)).any
          (fun l => jsIncludes (toUpperStr (jsTrim l)) "VAR CONSTANT".toList)
        [{ name := nm, dataType := jsTrim ty, scope := scope,
           isConstant := isConst,
           initialValue := init?.map (fun v => parseInitialValue (jsTrim v)),
           description := desc?.map jsTrim }]

/-- `STParser.extractVariables`: parse every `VAR ... END_VAR` section of
the preprocessed content, in order. -/
def extractVariables (content : Str) : List Variable :=
  (matchVarSections content).flatMap fun (sectionType, sectionContent) =>
    parseVariableSection sectionContent (mapVarSectionToScope sectionType)

/-- First index `j ≥ i` whose line is non-blank after trimming and does
not start with `//` (the inner loop of `findBodyStartIndex`). -/
def findNonBlankFrom : List Str → Nat → Option Nat
  | [], _ => none
  | l :: rest, j =>
    if jsTrim l ≠ [] ∧ ¬ startsWithStr (jsTrim l) "//".toList then some j
    else findNonBlankFrom rest (j + 1)

/-- Worker for `findBodyStartIndex`, scanning from index `i` (over the
suffix of the line list that starts there). -/
def findBodyStartGo : List Str → Nat → Nat
  | [], _ => 0
  | l :: rest, i =>
    let u := toUpperStr (jsTrim l)
    if startsWithStr u "END_VAR".toList ∨ u = "VAR".toList then
      match findNonBlankFrom rest (i + 1) with
      | some j => j
      | none => findBodyStartGo rest (i + 1)
    else findBodyStartGo rest (i + 1)

/-- `STParser.findBodyStartIndex`: at the first line that (trimmed and
upper-cased) starts with `END_VAR` or equals `VAR` and is followed by some
non-blank, non-comment line, return that following line's index; with no
such line, 0. -/
def findBodyStartIndex (lines : List Str) : Nat :=
  findBodyStartGo lines 0

/-- Worker for `findBodyEndIndex` on the reversed line list. -/
def findBodyEndGo : List Str → Nat → Option Nat
  | [], _ => none
  | l :: rest, i =>
    let u := toUpperStr (jsTrim l)
    if startsWithStr u "END_".toList ∨ startsWithStr u "FUNCTION".toList ∨
        startsWithStr u "PROGRAM".toList then some i
    else findBodyEndGo rest (i - 1)

/-- `STParser.findBodyEndIndex`: scanning from the last line towards the
first, return `i - 1` for the first line that (trimmed, upper-cased)
starts with `END_`, `FUNCTION` or `PROGRAM` (so `-1` when that line is the
first), and `lines.length - 1` when no line qualifies. -/
def findBodyEndIndex (lines : List Str) : Int :=
  match findBodyEndGo lines.reverse (lines.length - 1) with
  | some i => (i : Int) - 1
  | none => (lines.length : Int) - 1

/-- `STParser.extractBody`: the lines from the body start index through the
body end index, joined back with newlines; empty when either index is
`-1`. -/
def extractBody (content : Str) : Str :=
  let lines := splitOnStr "\n".toList content
  let bodyStartIndex := findBodyStartIndex lines
  let bodyEndIndex := findBodyEndIndex lines
  if bodyEndIndex = -1 then []
  else joinWith "\n".toList
    ((lines.drop bodyStartIndex).take (bodyEndIndex.toNat + 1 - bodyStartIndex))

/-- `STParser.extractDependencies`: collect, in pre-order, the name of
every FunctionCall node with a truthy (non-empty) name that is not a
reserved keyword, deduplicated in insertion order (a JS `Set`). -/
def extractDependencies (ast : ASTNode) : List Str :=
  dedupFirst (ASTNode.collect (fun node =>
    match node.type, node.name with
    | .FUNCTION_CALL, some nm =>
      if nm ≠ [] ∧ ¬ jsIncludesElem ST_KEYWORDS (toUpperStr nm) then [nm] else []
    | _, _ => []) ast)

/-- `STParser.findFBInstance`: the first declared variable whose name is
the call name, whose type is truthy, and whose upper-cased type is none of
the primitive scalar types. -/
def findFBInstance (instanceName : Str) (vars : List Variable) : Option Str :=
  ((vars.filter fun v =>
      v.name = instanceName ∧ v.dataType ≠ [] ∧
        ¬ jsIncludesElem
            (["BOOL", "INT", "DINT", "REAL", "STRING"].map String.toList)
            (toUpperStr v.dataType)).head?).map (·.dataType)

/-- `STParser.extractInstances`: for every Assignment whose second child is
a FunctionCall naming a declared non-primitive variable, record an
instance binding. -/
def extractInstances (ast : ASTNode) (vars : List Variable) : List FBInstance :=
  ASTNode.collect (fun node =>
    match node.type, (node.children).toList with
    | .ASSIGNMENT, _ :: valueNode :: _ =>
      if valueNode.type = .FUNCTION_CALL then
        match valueNode.name with
        | some nm =>
          match findFBInstance nm vars with
          | some ty => [{ name := nm, type := ty, lineNumber := node.lineNumber }]
          | none => []
        | none => []
      else []
    | _, _ => []) ast

/-- The comment-marker stripping
`trimmed.replace(/^\/\/|\/\*|\*\/\s*$/g, '')` of
`extractDescriptionFromComments`: the global alternation removes a leading
`//`, every `/*`, and a final `*/` followed only by whitespace. -/
def stripCommentMarkersF : Nat → Bool → Str → Str
  | 0, _, s => s
  | n + 1, atStart, s =>
    match s with
    | [] => []
    | c :: t =>
      if atStart ∧ startsWithStr (c :: t) "//".toList then
        stripCommentMarkersF n false t.tail
      else if startsWithStr (c :: t) "/*".toList then
        stripCommentMarkersF n false t.tail
      else if startsWithStr (c :: t) "*/".toList ∧ (t.tail).all isJsWs then
        []
      else c :: stripCommentMarkersF n false t

/-- Strip comment markers from one already-trimmed comment line. -/
def stripCommentMarkers (s : Str) : Str := stripCommentMarkersF (s.length + 1) true s

/-- The loop of `STParser.extractDescriptionFromComments`: iterate the
lines in reverse, prepending each comment line's stripped non-empty text,
and stop at the first non-comment, non-blank line. -/
def collectDescriptions : List Str → List Str → List Str
  | [], acc => acc
  | l :: rest, acc =>
    let trimmed := jsTrim l
    if startsWithStr trimmed "//".toList ∨ startsWithStr trimmed "(*".toList then
      let comment := jsTrim (stripCommentMarkers trimmed)
      collectDescriptions rest (if comment ≠ [] then comment :: acc else acc)
    else if trimmed ≠ [] then acc
    else collectDescriptions rest acc

/-- `STParser.extractDescriptionFromComments`. -/
def extractDescriptionFromComments (lines : List Str) : Option Str :=
  let descriptions := collectDescriptions lines.reverse []
  if descriptions = [] then none else some (joinWith " ".toList descriptions)

/-- The POU header (`POUHeader` of `stParser.ts`). -/
structure POUHeader where
  type : POUCategory
  name : Str
  description : Option Str

/-- `STParser.extractHeader`: the leftmost POU-declaration match, with the
description recovered from the comment lines immediately before it. -/
def extractHeader (content : Str) : Option POUHeader :=
  match matchPOUDecl content 0 with
  | none => none
  | some (cat, nm, idx) =>
    let linesBeforeDeclaration := splitOnStr "\n".toList (content.take idx)
    some { type := cat, name := nm,
           description := extractDescriptionFromComments linesBeforeDeclaration }

/-- `STParser.parse`: preprocess, extract the header (failing with the
thrown message when there is none — the outer `catch` rethrows it),
extract variables, body, AST, dependencies and instances, and assemble the
`POUFile`. `fuel` bounds the expression-recursion depth (a JS stack);
`now` is the `new Date()` timestamp written to `lastModified`. -/
def parse (fuel : Nat) (fileName content : Str) (now : Nat) :
    Except Str POUFile :=
  let preprocessedContent := preprocessContent content
  match extractHeader preprocessedContent with
  | none => .error "No valid POU declaration found".toList
  | some header =>
    let vars := extractVariables preprocessedContent
    let body := extractBody preprocessedContent
    let ast := generateAST fuel body
    .ok { id := [], name := header.name, type := header.type,
          filePath := fileName, content := jsTrim content, ast,
          «variables» := vars, dependencies := extractDependencies ast,
          instances := extractInstances ast vars,
          version := "1.0.0".toList, lastModified := now,
          description := header.description }

/-! ## The analysis engine (`analysisService.ts`)

The service object's collaborators are modelled as explicit inputs: the
project lookup (`projectService.getProject`) as an `Option Project`, the
external AI pass (`aiService.analyzeWithAI`, which resolves internally and
never rejects — it falls back to its mock output on any error) as a plain
issue list, and `Date.now()` as `now : Nat`. Issue confidences are scaled
by 100 (see the header comment). -/

/-- `IssueType` of `shared/types.ts`. -/
inductive IssueType where
  | SYNTAX_ERROR | RUNTIME_ERROR | LOGIC_ERROR
  | PERFORMANCE_ISSUE | STYLE_VIOLATION | SAFETY_CONCERN
  | POTENTIAL_IMPROVEMENT | CIRCULAR_DEPENDENCY | UNUSED_VARIABLE
deriving DecidableEq

/-- `IssueSeverity` of `shared/types.ts`. -/
inductive IssueSeverity where
  | CRITICAL | ERROR | WARNING | INFO
deriving DecidableEq

/-- `CodeIssue` of `shared/types.ts` (the optional `context` field, never
written by the analysis code, is omitted). `confidence` is scaled by 100. -/
structure CodeIssue where
  id : Str
  type : IssueType
  severity : IssueSeverity
  title : Str
  description : Str
  pouFiles : List Str
  lineNumber : Option Nat
  suggestion : Str
  confidence : Nat
deriving DecidableEq

/-- A dependency-graph edge (`GraphEdge` of `shared/types.ts`; the
analysis code reads only `edges.length`, so the presentational `data`
payload is omitted). -/
structure GraphEdge where
  id : Str
  source : Str
  target : Str
  type : Str
deriving DecidableEq

/-- A dependency-graph node (`GraphNode`; only carried, never read by the
analysis code). -/
structure GraphNode where
  id : Str
  name : Str
deriving DecidableEq

/-- `DependencyGraph` of `shared/types.ts`. -/
structure DependencyGraph where
  nodes : List GraphNode
  edges : List GraphEdge
deriving DecidableEq

/-- An error-log entry; the analysis code reads only `blockName` (it
groups by it and counts), so the remaining fields are omitted. -/
structure ErrorLog where
  blockName : Str
deriving DecidableEq

/-- A trace-log entry: carried but never inspected by the analysis code
(`analyzeTraceLogs` returns an empty list). -/
abbrev TraceLog := Unit

/-- A variable snapshot: carried but never inspected
(`analyzeVariableSnapshots` returns an empty list). -/
abbrev VariableSnapshot := Unit

/-- `RuntimeData` of `shared/types.ts`. -/
structure RuntimeData where
  variableSnapshots : List VariableSnapshot
  traceLogs : List TraceLog
  errorLogs : List ErrorLog

/-- `Project` of `shared/types.ts`: the fields the analysis engine reads
(timestamps, version strings and the variable dictionary are bookkeeping
it never touches). -/
structure Project where
  id : Str
  name : Str
  files : List POUFile
  dependencies : DependencyGraph
  runtimeData : Option RuntimeData

/-- `AnalysisOptions` of `shared/types.ts`. -/
structure AnalysisOptions where
  includeRuntimeData : Bool
  severityLevel : List IssueSeverity
  issueTypes : List IssueType
  includeSuggestions : Bool

/-- `AnalysisRequest` of `shared/types.ts`. -/
structure AnalysisRequest where
  projectId : Str
  focusedPou : Option Str
  options : AnalysisOptions

/-- The summary object `generateAnalysisSummary` returns (it carries more
fields than the declared `AnalysisSummary` interface; `analysisTime`, an
ISO timestamp, is modelled by the timestamp itself). -/
structure AnalysisSummary where
  projectId : Str
  projectName : Str
  totalFiles : Nat
  totalVariables : Nat
  analysisTime : Nat
  complexityScore : Nat
  safetyScore : Int
  maintainabilityScore : Int
deriving DecidableEq

/-- `CodeAnalysisResult` of `shared/types.ts`. -/
structure CodeAnalysisResult where
  totalIssues : Nat
  criticalIssues : Nat
  warnings : Nat
  issues : List CodeIssue
  summary : AnalysisSummary
  recommendations : List Str
deriving DecidableEq

/-- Decimal digits of a natural number (for the `Date.now()` interpolation
in issue ids). -/
def natDigits (n : Nat) : Str := (toString n).toList

/-- `parseInt(s, 10)`: skip leading whitespace, an optional sign, then a
non-empty maximal digit run; `none` models `NaN` (and a `NaN` operand
makes the `start >= end` comparison false). -/
def jsParseInt (s : Str) : Option Int :=
  let t := s.dropWhile isJsWs
  let (neg, body) : Bool × Str := match t with
    | '-' :: r => (true, r)
    | '+' :: r => (false, r)
    | r => (false, r)
  let ds := body.takeWhile Char.isDigit
  if ds = [] then none
  else
    let v : Nat := Nat.ofDigits 10 ((ds.map (fun c => c.toNat - 48)).reverse)
    some (if neg then - (v : Int) else (v : Int))

/-- Per-node issue emission of `analyzeLoops.findLoops`: a FOR loop whose
parsed `start TO end` bounds satisfy `start >= end` is flagged (confidence
0.8); every WHILE loop is flagged unconditionally (confidence 0.6). -/
def loopNodeIssues (pouName : Str) (now : Nat) (node : ASTNode) :
    List CodeIssue :=
  if node.type = .FOR_LOOP then
    match node.value with
    | some v =>
      if v ≠ [] ∧ jsIncludes v "TO".toList then
        let parts := splitOnStr "TO".toList v
        if parts.length = 2 then
          -- `parseInt` of each trimmed part; a NaN (`none`) operand makes
          -- the `start >= end` test false, so no issue is emitted.
          match jsParseInt (jsTrim (parts.getD 0 [])) with
          | none => []
          | some s =>
          match jsParseInt (jsTrim (parts.getD 1 [])) with
          | none => []
          | some e =>
            if s ≥ e then
              [{ id := "loop-issue-".toList ++ natDigits now,
                 type := .LOGIC_ERROR, severity := .WARNING,
                 title := "Potential Infinite Loop".toList,
                 description := ("FOR loop may never execute: start value (".toList
                   ++ (toString s).toList ++ ") >= end value (".toList
                   ++ (toString e).toList ++ ")".toList),
                 pouFiles := [pouName], lineNumber := some node.lineNumber,
                 suggestion := "Verify loop bounds or consider using a WHILE loop.".toList,
                 confidence := 80 }]
            else []
        else []
      else []
    | none => []
  else if node.type = .WHILE_LOOP then
    [{ id := "while-check-".toList ++ natDigits now,
       type := .LOGIC_ERROR, severity := .WARNING,
       title := "WHILE Loop Safety Check".toList,
       description := "WHILE loop detected - ensure proper exit condition exists".toList,
       pouFiles := [pouName], lineNumber := some node.lineNumber,
       suggestion := "Add timeout or counter to prevent infinite loops.".toList,
       confidence := 60 }]
  else []

/-- `AnalysisService.analyzeLoops`: the pre-order traversal of the POU's
AST with `loopNodeIssues` at every node. -/
def analyzeLoops (pou : POUFile) (now : Nat) : List CodeIssue :=
  ASTNode.collect (loopNodeIssues pou.name now) pou.ast

/-- `AnalysisService.hasDivisionSafetyCheck`: some line of the unit's raw
content contains `IF` together with a zero-comparison operator. -/
def hasDivisionSafetyCheck (content : Str) : Bool :=
  (splitOnStr "\n".toList content).any fun line =>
    jsIncludes line "IF".toList &&
      (jsIncludes line "<> 0".toList || jsIncludes line "> 0".toList ||
       jsIncludes line "!= 0".toList)

/-- Per-node issue emission of `analyzeDivisionOperations.findDivisions`. -/
def divisionNodeIssues (pou : POUFile) (now : Nat) (node : ASTNode) :
    List CodeIssue :=
  if node.type = .ASSIGNMENT then
    match node.value with
    | some v =>
      if v ≠ [] ∧ (jsIncludes v "/".toList ∨ jsIncludes v "DIV".toList) then
        if hasDivisionSafetyCheck pou.content then []
        else
          [{ id := "division-safety-".toList ++ natDigits now,
             type := .RUNTIME_ERROR, severity := .WARNING,
             title := "Potential Division by Zero".toList,
             description := "Division operation detected without proper zero check".toList,
             pouFiles := [pou.name], lineNumber := some node.lineNumber,
             suggestion := "Add zero check before division or use safe division function.".toList,
             confidence := 70 }]
      else []
    | none => []
  else []

/-- `AnalysisService.analyzeDivisionOperations`. -/
def analyzeDivisionOperations (pou : POUFile) (now : Nat) : List CodeIssue :=
  ASTNode.collect (divisionNodeIssues pou now) pou.ast

/-- The array-reference regex `/^(\w+)\[(.+)\]$/` of `analyzeArrayAccess`:
a maximal leading word run, `[`, a non-empty middle, and a final `]`. -/
def matchArrayRef (s : Str) : Option (Str × Str) :=
  let nm := s.takeWhile isWordChar
  if nm = [] then none else
  match s.drop nm.length with
  | '[' :: rest =>
    match rest.reverse with
    | ']' :: revMid =>
      if revMid = [] then none
      else if jsIncludes revMid "\n".toList then none
      else some (nm, revMid.reverse)
    | _ => none
  | _ => none

/-- `AnalysisService.hasArrayBoundsCheck`. -/
def hasArrayBoundsCheck (arrayName : Str) (content : Str) : Bool :=
  (splitOnStr "\n".toList content).any fun line =>
    jsIncludes line arrayName &&
      (jsIncludes line ">=".toList && jsIncludes line "<=".toList)

/-- Per-node issue emission of `analyzeArrayAccess.findArrayAccess`. -/
def arrayNodeIssues (pou : POUFile) (now : Nat) (node : ASTNode) :
    List CodeIssue :=
  if node.type = .VARIABLE then
    match node.name with
    | some nm =>
      if nm ≠ [] ∧ jsIncludes nm "[".toList then
        match matchArrayRef nm with
        | some (arrayName, index) =>
          if hasArrayBoundsCheck arrayName pou.content then []
          else
            [{ id := "array-bounds-".toList ++ natDigits now,
               type := .RUNTIME_ERROR, severity := .WARNING,
               title := "Potential Array Bounds Violation".toList,
               description := ("Array access without bounds validation: ".toList
                 ++ arrayName ++ "[".toList ++ index ++ "]".toList),
               pouFiles := [pou.name], lineNumber := some node.lineNumber,
               suggestion := "Add bounds checking before array access.".toList,
               confidence := 60 }]
        | none => []
      else []
    | none => []
  else []

/-- `AnalysisService.analyzeArrayAccess`. -/
def analyzeArrayAccess (pou : POUFile) (now : Nat) : List CodeIssue :=
  ASTNode.collect (arrayNodeIssues pou now) pou.ast

/-- `AnalysisService.findUninitializedVariables`: an unimplemented stub
returning the empty list (quoted: "Simplified uninitialized variable
detection"). -/
def findUninitializedVariables (_pou : POUFile) : List Str := []

/-- `AnalysisService.analyzeVariableInitialization`: builds one issue per
reported uninitialized variable; the detector above returns none. -/
def analyzeVariableInitialization (pou : POUFile) (now : Nat) : List CodeIssue :=
  (findUninitializedVariables pou).map fun variableName =>
    { id := "uninitialized-".toList ++ natDigits now,
      type := .RUNTIME_ERROR, severity := .WARNING,
      title := ("Potentially Uninitialized Variable: ".toList ++ variableName),
      description := ("Variable ".toList ++ variableName
        ++ " may be used before initialization".toList),
      pouFiles := [pou.name], lineNumber := none,
      suggestion := "Initialize variables before use or add initialization logic.".toList,
      confidence := 50 }

/-- `AnalysisService.performStructuralAnalysis`: the four per-unit checks,
concatenated per file in order. -/
def performStructuralAnalysis (project : Project) (now : Nat) : List CodeIssue :=
  project.files.flatMap fun pou =>
    analyzeLoops pou now ++ analyzeDivisionOperations pou now ++
    analyzeArrayAccess pou now ++ analyzeVariableInitialization pou now

/-- `AnalysisService.detectCircularDependencies`: an unimplemented stub
that returns the empty list for every dependency graph (quoted:
"Simplified circular dependency detection / In practice, you'd use graph
algorithms like Tarjan's strongly connected components"). -/
def detectCircularDependencies (_dependencies : DependencyGraph) :
    List (List Str) := []

/-- `AnalysisService.findOrphanedDependencies`: every declared dependency
name (first-occurrence deduplicated, as a JS `Set`) with no file of that
name in the project. -/
def findOrphanedDependencies (project : Project) : List Str :=
  let declaredDeps := dedupFirst (project.files.flatMap (·.dependencies))
  let existingFiles := project.files.map (·.name)
  declaredDeps.filter fun dep => ¬ jsIncludesElem existingFiles dep

/-- `AnalysisService.performDependencyAnalysis`: one Error-severity issue
per detected cycle (there are never any — the detector is a stub), then
one Warning per orphaned dependency. -/
def performDependencyAnalysis (project : Project) (now : Nat) : List CodeIssue :=
  ((detectCircularDependencies project.dependencies).map fun cycle =>
    { id := "circular-dep-".toList ++ natDigits now,
      type := .CIRCULAR_DEPENDENCY, severity := .ERROR,
      title := "Circular Dependency Detected".toList,
      description := ("Circular dependency between: ".toList
        ++ joinWith " -> ".toList cycle),
      pouFiles := cycle, lineNumber := none,
      suggestion := "Refactor to eliminate circular dependencies by creating an intermediate layer or using interfaces.".toList,
      confidence := 95 }) ++
  ((findOrphanedDependencies project).map fun dep =>
    { id := "orphaned-dep-".toList ++ natDigits now,
      type := .POTENTIAL_IMPROVEMENT, severity := .WARNING,
      title := "Orphaned Dependency".toList,
      description := ("Dependency \"".toList ++ dep
        ++ "\" is declared but may not be used".toList),
      pouFiles := [dep], lineNumber := none,
      suggestion := "Consider removing unused dependencies or verify their usage.".toList,
      confidence := 70 })

/-- `AnalysisService.findUnusedVariables`: an unimplemented stub returning
the empty list (quoted: "Simplified unused variable detection"). -/
def findUnusedVariables (_pou : POUFile) : List Variable := []

/-- Worker for `findVariableDeclarationLine`. -/
def findDeclLineGo : List Str → Str → Nat → Option Nat
  | [], _, _ => none
  | l :: rest, nm, i =>
    if jsIncludes l nm ∧ jsIncludes l ":".toList then some (i + 1)
    else findDeclLineGo rest nm (i + 1)

/-- `AnalysisService.findVariableDeclarationLine`: the 1-based index of
the first content line containing both the variable name and a colon. -/
def findVariableDeclarationLine (pou : POUFile) (variableName : Str) :
    Option Nat :=
  findDeclLineGo (splitOnStr "\n".toList pou.content) variableName 0

/-- `AnalysisService.checkVariableNaming`: an Info/StyleViolation issue
for every declared variable whose name fails the identifier pattern. -/
def checkVariableNaming (pou : POUFile) (now : Nat) : List CodeIssue :=
  pou.variables.flatMap fun v =>
    if matchesIdent v.name then []
    else
      [{ id := "naming-".toList ++ natDigits now ++ "-".toList ++ v.name,
         type := .STYLE_VIOLATION, severity := .INFO,
         title := ("Invalid Variable Name: ".toList ++ v.name),
         description := ("Variable name ".toList ++ v.name
           ++ " does not follow standard naming conventions".toList),
         pouFiles := [pou.name], lineNumber := none,
         suggestion := "Use alphanumeric characters and underscores, starting with a letter or underscore.".toList,
         confidence := 90 }]

/-- `AnalysisService.checkDataTypes`: an unimplemented stub. -/
def checkDataTypes (_pou : POUFile) : List CodeIssue := []

/-- `AnalysisService.performVariableAnalysis`: unused variables (never
any, the detector is a stub), naming-convention checks, and data-type
checks (a stub), per file. -/
def performVariableAnalysis (project : Project) (now : Nat) : List CodeIssue :=
  project.files.flatMap fun pou =>
    ((findUnusedVariables pou).map fun v =>
      { id := "unused-var-".toList ++ natDigits now ++ "-".toList ++ v.name,
        type := .UNUSED_VARIABLE, severity := .WARNING,
        title := ("Unused Variable: ".toList ++ v.name),
        description := ("Variable ".toList ++ v.name
          ++ " is declared but never used".toList),
        pouFiles := [pou.name],
        lineNumber := findVariableDeclarationLine pou v.name,
        suggestion := ("Remove unused variable ".toList ++ v.name
          ++ " or use it in the code logic.".toList),
        confidence := 80 }) ++
    checkVariableNaming pou now ++ checkDataTypes pou

/-- `AnalysisService.groupErrorsByBlock`: group the error logs by block
name; JS object keys enumerate in first-insertion order (the block names
here are not array-index-like strings). -/
def groupErrorsByBlock (errorLogs : List ErrorLog) : List (Str × List ErrorLog) :=
  (dedupFirst (errorLogs.map (·.blockName))).map fun nm =>
    (nm, errorLogs.filter (fun e => e.blockName = nm))

/-- `AnalysisService.analyzeErrorLogs`: one Safety/Error issue per block
with more than five error-log entries. -/
def analyzeErrorLogs (errorLogs : List ErrorLog) (now : Nat) : List CodeIssue :=
  (groupErrorsByBlock errorLogs).flatMap fun (blockName, errors) =>
    if errors.length > 5 then
      [{ id := "error-pattern-".toList ++ natDigits now ++ "-".toList ++ blockName,
         type := .SAFETY_CONCERN, severity := .ERROR,
         title := ("High Error Rate in ".toList ++ blockName),
         description := ("Block ".toList ++ blockName ++ " has generated ".toList
           ++ natDigits errors.length ++ " errors".toList),
         pouFiles := [blockName], lineNumber := none,
         suggestion := "Review error handling and logic in this block.".toList,
         confidence := 80 }]
    else []

/-- `AnalysisService.performRuntimeAnalysis`: nothing without runtime
data; with it, the error-log analysis (the trace-log and snapshot
analyses are stubs returning nothing). -/
def performRuntimeAnalysis (project : Project) (now : Nat) : List CodeIssue :=
  match project.runtimeData with
  | none => []
  | some rd =>
    if rd.errorLogs.length > 0 then analyzeErrorLogs rd.errorLogs now else []

/-- `AnalysisService.filterIssues`: keep an issue when its severity and
type are requested and its confidence is at least 0.5. -/
def filterIssues (issues : List CodeIssue) (request : AnalysisRequest) :
    List CodeIssue :=
  issues.filter fun issue =>
    jsIncludesElem request.options.severityLevel issue.severity &&
    jsIncludesElem request.options.issueTypes issue.type &&
    !(issue.confidence < 50)

/-- `AnalysisService.getSeverityScore` (the `|| 0` default is unreachable
for the four severities). -/
def getSeverityScore : IssueSeverity → Nat
  | .CRITICAL => 4
  | .ERROR => 3
  | .WARNING => 2
  | .INFO => 1

/-- The comparator passed to `filteredIssues.sort` — transcribed exactly,
crossed local names included: the local `aScore` is computed from `b` and
`bScore` from `a`, so the returned difference is
`(score a + confidence a) - (score b + confidence b)` and the sort is
ascending in the combined score. Scores are scaled by 100 like the
confidences (`getSeverityScore` multiplied by 100), which preserves the
comparator's sign exactly. -/
def sortComparator (a b : CodeIssue) : Int :=
  let severityScore := getSeverityScore b.severity
  let aScore : Int := (severityScore : Int) * 100 + (b.confidence : Int)
  let bScore : Int := (getSeverityScore a.severity : Int) * 100 + (a.confidence : Int)
  bScore - aScore

/-- Stable insertion of `x` after every element that does not compare
strictly greater: the unique placement a stable sort gives. -/
def jsSortInsert (cmp : α → α → Int) (x : α) : List α → List α
  | [] => [x]
  | y :: ys => if cmp y x ≤ 0 then y :: jsSortInsert cmp x ys else x :: y :: ys

/-- `Array.prototype.sort` with a consistent comparator: since ES2019 the
sort is stable, so for a comparator induced by a numeric key the result is
the unique stable reordering — realised here by left-to-right stable
insertion. -/
def jsSortStable (cmp : α → α → Int) (l : List α) : List α :=
  l.foldl (fun acc x => jsSortInsert cmp x acc) []

/-- `AnalysisService.calculateComplexityScore`. -/
def calculateComplexityScore (project : Project) : Nat :=
  let score := project.files.length * 2
  let score := score + project.files.foldl (fun sum pou => sum + pou.variables.length) 0
  let score := score + project.dependencies.edges.length * 3
  min score 100

/-- `AnalysisService.calculateSafetyScore`. -/
def calculateSafetyScore (issues : List CodeIssue) : Int :=
  let safetyIssues := issues.filter fun issue =>
    issue.type = .SAFETY_CONCERN ∨ issue.type = .RUNTIME_ERROR
  max 0 (100 - (safetyIssues.length : Int) * 10)

/-- `AnalysisService.calculateMaintainabilityScore`. -/
def calculateMaintainabilityScore (_project : Project) (issues : List CodeIssue) :
    Int :=
  let maintainabilityIssues := issues.filter fun issue =>
    issue.type = .STYLE_VIOLATION ∨ issue.type = .UNUSED_VARIABLE ∨
      issue.type = .CIRCULAR_DEPENDENCY
  max 0 (100 - (maintainabilityIssues.length : Int) * 5)

/-- `AnalysisService.generateAnalysisSummary`. -/
def generateAnalysisSummary (project : Project) (issues : List CodeIssue)
    (now : Nat) : AnalysisSummary :=
  { projectId := project.id, projectName := project.name,
    totalFiles := project.files.length,
    totalVariables := project.files.foldl (fun sum pou => sum + pou.variables.length) 0,
    analysisTime := now,
    complexityScore := calculateComplexityScore project,
    safetyScore := calculateSafetyScore issues,
    maintainabilityScore := calculateMaintainabilityScore project issues }

/-- Count of issues of a type (`issueTypes[t]` of
`generateRecommendations`). -/
def countIssueType (issues : List CodeIssue) (t : IssueType) : Nat :=
  (issues.filter (fun i => i.type = t)).length

/-- `AnalysisService.generateRecommendations`. -/
def generateRecommendations (issues : List CodeIssue) : List Str :=
  (if countIssueType issues .SAFETY_CONCERN > 0 then
    ["Address safety concerns immediately to prevent potential runtime errors.".toList]
   else []) ++
  (if countIssueType issues .CIRCULAR_DEPENDENCY > 0 then
    ["Refactor circular dependencies to improve code maintainability.".toList]
   else []) ++
  (if countIssueType issues .UNUSED_VARIABLE > 5 then
    ["Consider removing unused variables to improve code clarity.".toList]
   else []) ++
  (if countIssueType issues .RUNTIME_ERROR > 3 then
    ["Add comprehensive error handling to prevent runtime failures.".toList]
   else [])

/-- `AnalysisService.analyzeProject`. `findProject` is the resolved
project lookup; `aiIssues` is what the external AI pass resolves to (used
only when suggestions are requested). A missing project throws `Project
not found: <id>`, and the surrounding `catch` logs and rethrows — the
error reaches the caller. With a project, the four internal passes run,
the issues are filtered, sorted in place by the comparator, counted, and
packed with the summary and recommendations. -/
def analyzeProject (projectId : Str) (findProject : Option Project)
    (request : AnalysisRequest) (aiIssues : List CodeIssue) (now : Nat) :
    Except Str CodeAnalysisResult :=
  match findProject with
  | none => .error ("Project not found: ".toList ++ projectId)
  | some project =>
    let structuralIssues := performStructuralAnalysis project now
    let dependencyIssues := performDependencyAnalysis project now
    let variableIssues := performVariableAnalysis project now
    let runtimeIssues := performRuntimeAnalysis project now
    let issues := structuralIssues ++ dependencyIssues ++ variableIssues ++
      runtimeIssues ++
      (if request.options.includeSuggestions then aiIssues else [])
    let filteredIssues := jsSortStable sortComparator (filterIssues issues request)
    .ok { totalIssues := filteredIssues.length,
          criticalIssues := (filteredIssues.filter (fun i => i.severity = .CRITICAL)).length,
          warnings := (filteredIssues.filter (fun i => i.severity = .WARNING)).length,
          issues := filteredIssues,
          summary := generateAnalysisSummary project filteredIssues now,
          recommendations := generateRecommendations filteredIssues }

/-! ## Derived observations and spec-side notions used by the claims -/

/-- Number of AST nodes of a given type. -/
def countNodesOfType (t : ASTNodeType) (ast : ASTNode) : Nat :=
  (ASTNode.collect (fun n => if n.type = t then [n] else []) ast).length

/-- The issue list of an analysis outcome (empty for a thrown error). -/
def issuesOf : Except Str CodeAnalysisResult → List CodeIssue
  | .ok r => r.issues
  | .error _ => []

/-- Number of reported issues of a given type in an analysis outcome. -/
def reportedOfType (r : Except Str CodeAnalysisResult) (t : IssueType) : Nat :=
  countIssueType (issuesOf r) t

/-- The expression parser diverges on `s`: it yields no result at any
recursion depth (in JS, the mutual `parseExpression` and
`parseBinaryExpression` calls overflow the stack). -/
def parseExpressionDiverges (s : Str) : Prop :=
  ∀ fuel ln, parseExpression fuel ln s = none

/-- The line parser yields no node on `line` at any recursion depth. -/
def lineNeverParses (line : Str) : Prop :=
  ∀ fuel ln, parseLine fuel ln line = none

/-- An expression on which `parseBinaryExpression`'s operator loop finds
no operator that splits it into exactly two parts (so its fallback
re-enters `parseExpression` on the unchanged string). -/
def noOperatorSplits (e : Str) : Bool :=
  binaryOperators.all fun op =>
    let sep := ' ' :: (op ++ [' '])
    !(jsIncludes e sep) || !((splitOnStr sep e).length == 2)

/-- The expression of claim C2 on which expression parsing loops: it
contains the listed operator `AND` twice, so the ` AND ` split has three
parts. -/
def badExpr : Str := "a AND b AND c".toList

/-- The assignment line of claim C10 whose middle `:=` segment is
`badExpr`, so the right-hand expression parse loops and the line yields no
node. -/
def divergingAssignLine : Str := "x := a AND b AND c := 1;".toList

/-- The text left of the first `:=` of a line, trimmed — the assignment
target `parseAssignment` records. -/
def assignTargetOf (line : Str) : Str :=
  jsTrim ((splitOnStr ":=".toList line).getD 0 [])

/-- The text between the first and second `:=` of a line, trimmed, with
its first semicolon removed — the value `parseAssignment` records. -/
def assignValueOf (line : Str) : Str :=
  replaceFirst (jsTrim ((splitOnStr ":=".toList line).getD 1 [])) ";".toList []

/-- Everything of a parsed `POUFile` except the `lastModified` wall-clock
timestamp (for the idempotence claim C6). -/
structure POUShape where
  id : Str
  name : Str
  type : POUCategory
  filePath : Str
  content : Str
  ast : ASTNode
  «variables» : List Variable
  dependencies : List Str
  instances : List FBInstance
  version : Str
  description : Option Str

/-- Forget the `lastModified` field. -/
def POUFile.shape (p : POUFile) : POUShape :=
  { id := p.id, name := p.name, type := p.type, filePath := p.filePath,
    content := p.content, ast := p.ast, «variables» := p.variables,
    dependencies := p.dependencies, instances := p.instances,
    version := p.version, description := p.description }

/-! ## Concrete inputs used by the claims -/

/-- The scenario input of spec section 8. -/
def scenarioText : Str :=
  ("PROGRAM T\nVAR\n  x: INT := 0;\nEND_VAR\nFOR x := 5 TO 1 DO\n" ++
   "  x := x + 1;\nEND_FOR;\nEND_PROGRAM").toList

/-- The one variable the scenario parse produces. -/
def scenarioVariable : Variable :=
  { name := "x".toList, dataType := "INT".toList, scope := .LOCAL,
    isConstant := false, initialValue := some (.int 0), description := none }

/-- The AST the scenario parse produces: three Assignment statements — the
FOR header line contains `:=` and is therefore dispatched to
`parseAssignment`, not `parseForLoop`. -/
def scenarioAst : ASTNode :=
  .mk .PROGRAM none none (.cons
    (.mk .ASSIGNMENT (some "x: INT".toList) (some "0".toList)
      (.cons (.mk .VARIABLE (some "x: INT".toList) none .nil 1 1 gscope)
        (.cons (.mk .LITERAL none (some "0".toList) .nil 1 1 gscope) .nil))
      1 1 gscope)
    (.cons
      (.mk .ASSIGNMENT (some "FOR x".toList) (some "5 TO 1 DO".toList)
        (.cons (.mk .VARIABLE (some "FOR x".toList) none .nil 3 1 gscope)
          (.cons (.mk .VARIABLE (some "5 TO 1 DO".toList) none .nil 3 1 gscope) .nil))
        3 1 gscope)
      (.cons
        (.mk .ASSIGNMENT (some "x".toList) (some "x + 1".toList)
          (.cons (.mk .VARIABLE (some "x".toList) none .nil 4 1 gscope)
            (.cons
              (.mk .BINARY_EXPRESSION (some "+".toList) (some "x + 1".toList)
                (.cons (.mk .VARIABLE (some "x".toList) none .nil 4 1 gscope)
                  (.cons (.mk .LITERAL none (some "1".toList) .nil 4 1 gscope) .nil))
                4 1 gscope) .nil))
          4 1 gscope) .nil))) 1 1 gscope

/-- The `POUFile` the scenario parse produces (at timestamp 0). -/
def scenarioPou : POUFile :=
  { id := [], name := "T".toList, type := .PROGRAM, filePath := "T".toList,
    content := scenarioText, ast := scenarioAst,
    «variables» := [scenarioVariable], dependencies := [], instances := [],
    version := "1.0.0".toList, lastModified := 0, description := none }

/-- An analysis request enabling every pass output: all severities, all
issue types, no suggestions. -/
def reqAll : AnalysisRequest :=
  { projectId := "p1".toList, focusedPou := none,
    options := { includeRuntimeData := false,
                 severityLevel := [.CRITICAL, .ERROR, .WARNING, .INFO],
                 issueTypes := [.SYNTAX_ERROR, .RUNTIME_ERROR, .LOGIC_ERROR,
                   .PERFORMANCE_ISSUE, .STYLE_VIOLATION, .SAFETY_CONCERN,
                   .POTENTIAL_IMPROVEMENT, .CIRCULAR_DEPENDENCY,
                   .UNUSED_VARIABLE],
                 includeSuggestions := false } }

/-- `reqAll` with the suggestion (AI) pass enabled. -/
def reqAllSuggestions : AnalysisRequest :=
  { reqAll with options := { reqAll.options with includeSuggestions := true } }

/-- A project holding just the parsed scenario unit. -/
def scenarioProject : Project :=
  { id := "p1".toList, name := "scenario".toList, files := [scenarioPou],
    dependencies := { nodes := [], edges := [] }, runtimeData := none }

/-- A minimal POU skeleton used to build analysis-input projects
directly. -/
def plainPou (nm : Str) (deps : List Str) (ast : ASTNode) : POUFile :=
  { id := [], name := nm, type := .PROGRAM, filePath := nm, content := [],
    ast := ast, «variables» := [], dependencies := deps, instances := [],
    version := "1.0.0".toList, lastModified := 0, description := none }

/-- An AST root with no statements. -/
def emptyRoot : ASTNode := .mk .PROGRAM none none .nil 1 1 gscope

/-- The three-unit dependency cycle of claim C3: A depends on B, B on C,
C on A. -/
def cycleProject : Project :=
  { id := "cyc".toList, name := "cyc".toList,
    files := [plainPou "A".toList ["B".toList] emptyRoot,
              plainPou "B".toList ["C".toList] emptyRoot,
              plainPou "C".toList ["A".toList] emptyRoot],
    dependencies := { nodes := [], edges := [] }, runtimeData := none }

/-- A project whose only unit contains one WHILE loop (the loop-safety
pass reports its advisory issue on it). -/
def whileProject : Project :=
  { id := "w".toList, name := "w".toList,
    files := [plainPou "W".toList []
      (.mk .PROGRAM none none
        (.cons (.mk .WHILE_LOOP (some "WHILE".toList) (some "x".toList)
          (.cons (.mk .VARIABLE (some "x".toList) none .nil 1 1 gscope) .nil)
          1 1 gscope) .nil) 1 1 gscope)],
    dependencies := { nodes := [], edges := [] }, runtimeData := none }

/-- The issue the loop-safety pass reports for `whileProject`. -/
def whileAdvisoryIssue : CodeIssue :=
  { id := "while-check-0".toList, type := .LOGIC_ERROR, severity := .WARNING,
    title := "WHILE Loop Safety Check".toList,
    description := "WHILE loop detected - ensure proper exit condition exists".toList,
    pouFiles := ["W".toList], lineNumber := some 1,
    suggestion := "Add timeout or counter to prevent infinite loops.".toList,
    confidence := 60 }

/-- A project with no units (all internal passes emit nothing on it). -/
def emptyProject : Project :=
  { id := "e".toList, name := "e".toList, files := [],
    dependencies := { nodes := [], edges := [] }, runtimeData := none }

/-- A Critical issue with confidence 0.9 (combined sort score 4.9),
discovered first in claim C4's failing input. -/
def criticalIssue : CodeIssue :=
  { id := "ai-1".toList, type := .SAFETY_CONCERN, severity := .CRITICAL,
    title := "critical".toList, description := [], pouFiles := [],
    lineNumber := none, suggestion := [], confidence := 90 }

/-- An Info issue with confidence 0.5 (combined sort score 1.5),
discovered second in claim C4's failing input. -/
def infoIssue : CodeIssue :=
  { id := "ai-2".toList, type := .POTENTIAL_IMPROVEMENT, severity := .INFO,
    title := "info".toList, description := [], pouFiles := [],
    lineNumber := none, suggestion := [], confidence := 50 }

/-! ## Helper lemmas -/

theorem jsIncludesElem_iff [DecidableEq α] (l : List α) (x : α) :
    jsIncludesElem l x = true ↔ x ∈ l := by
  simp [jsIncludesElem, List.any_eq_true]

theorem mem_jsSortInsert (cmp : α → α → Int) (x a : α) (l : List α) :
    a ∈ jsSortInsert cmp x l ↔ a = x ∨ a ∈ l := by
  induction l with
  | nil => simp [jsSortInsert]
  | cons y ys ih =>
    simp only [jsSortInsert]
    split
    · simp only [List.mem_cons, ih]
      tauto
    · simp only [List.mem_cons]

theorem mem_jsSortStable_aux (cmp : α → α → Int) (l acc : List α) (a : α) :
    a ∈ List.foldl (fun acc x => jsSortInsert cmp x acc) acc l ↔
      a ∈ acc ∨ a ∈ l := by
  induction l generalizing acc with
  | nil => simp
  | cons x xs ih =>
    simp only [List.foldl_cons, ih, mem_jsSortInsert, List.mem_cons]
    tauto

theorem mem_jsSortStable (cmp : α → α → Int) (l : List α) (a : α) :
    a ∈ jsSortStable cmp l ↔ a ∈ l := by
  simp [jsSortStable, mem_jsSortStable_aux]

theorem mem_filterIssues (issues : List CodeIssue) (req : AnalysisRequest)
    (i : CodeIssue) (hi : i ∈ filterIssues issues req) :
    i.severity ∈ req.options.severityLevel ∧
      i.type ∈ req.options.issueTypes ∧ 50 ≤ i.confidence := by
  simp only [filterIssues, List.mem_filter] at hi
  obtain ⟨-, h⟩ := hi
  rw [Bool.and_eq_true, Bool.and_eq_true] at h
  obtain ⟨⟨h1, h2⟩, h3⟩ := h
  refine ⟨(jsIncludesElem_iff _ _).mp h1, (jsIncludesElem_iff _ _).mp h2, ?_⟩
  simp only [Bool.not_eq_true'] at h3
  have := of_decide_eq_false h3
  omega

theorem mem_filterIssues_sub (issues : List CodeIssue) (req : AnalysisRequest)
    (i : CodeIssue) (hi : i ∈ filterIssues issues req) : i ∈ issues :=
  (List.mem_filter.mp hi).1

theorem collect_forall (f : ASTNode → List α) (P : α → Prop)
    (hf : ∀ n, ∀ i ∈ f n, P i) (node : ASTNode) :
    ∀ i ∈ ASTNode.collect f node, P i :=
  @ASTNode.rec
    (fun node => ∀ i ∈ ASTNode.collect f node, P i)
    (fun l => ∀ i ∈ ASTNodeList.collect f l, P i)
    (fun t n v ch ln col sc ih => by
      intro i hi
      have hi' : i ∈ f (.mk t n v ch ln col sc) ++ ASTNodeList.collect f ch := hi
      rcases List.mem_append.mp hi' with h | h
      · exact hf _ _ h
      · exact ih i h)
    (by intro i hi; cases hi)
    (fun h t ih1 ih2 => by
      intro i hi
      have hi' : i ∈ ASTNode.collect f h ++ ASTNodeList.collect f t := hi
      rcases List.mem_append.mp hi' with h' | h'
      · exact ih1 i h'
      · exact ih2 i h')
    node

theorem loopNodeIssues_type (pn : Str) (now : Nat) (n : ASTNode) (i : CodeIssue)
    (hi : i ∈ loopNodeIssues pn now n) : i.type = .LOGIC_ERROR := by
  simp only [loopNodeIssues] at hi
  repeat' split at hi
  all_goals try (exact absurd hi (List.not_mem_nil i))
  all_goals (rw [List.mem_singleton] at hi; subst hi; rfl)

theorem divisionNodeIssues_type (pou : POUFile) (now : Nat) (n : ASTNode)
    (i : CodeIssue) (hi : i ∈ divisionNodeIssues pou now n) :
    i.type = .RUNTIME_ERROR := by
  simp only [divisionNodeIssues] at hi
  repeat' split at hi
  all_goals try (exact absurd hi (List.not_mem_nil i))
  all_goals (rw [List.mem_singleton] at hi; subst hi; rfl)

theorem arrayNodeIssues_type (pou : POUFile) (now : Nat) (n : ASTNode)
    (i : CodeIssue) (hi : i ∈ arrayNodeIssues pou now n) :
    i.type = .RUNTIME_ERROR := by
  simp only [arrayNodeIssues] at hi
  repeat' split at hi
  all_goals try (exact absurd hi (List.not_mem_nil i))
  all_goals (rw [List.mem_singleton] at hi; subst hi; rfl)

theorem checkVariableNaming_type (pou : POUFile) (now : Nat) (i : CodeIssue)
    (hi : i ∈ checkVariableNaming pou now) : i.type = .STYLE_VIOLATION := by
  simp only [checkVariableNaming, List.mem_flatMap] at hi
  obtain ⟨v, -, hi⟩ := hi
  split at hi
  · exact absurd hi (List.not_mem_nil i)
  · rw [List.mem_singleton] at hi; subst hi; rfl

theorem analyzeErrorLogs_type (logs : List ErrorLog) (now : Nat) (i : CodeIssue)
    (hi : i ∈ analyzeErrorLogs logs now) : i.type = .SAFETY_CONCERN := by
  simp only [analyzeErrorLogs, List.mem_flatMap] at hi
  obtain ⟨g, -, hi⟩ := hi
  split at hi
  · rw [List.mem_singleton] at hi; subst hi; rfl
  · exact absurd hi (List.not_mem_nil i)

/-- No pass of the analysis service itself ever emits a CircularDependency
issue: the structural checks emit LogicError and RuntimeError issues, the
dependency pass emits only orphaned-dependency warnings (its cycle
detector is a stub returning no cycles), the variable pass emits style
violations (its unused-variable detector is a stub), and the runtime pass
emits safety concerns. -/
theorem internalPasses_no_circular (project : Project) (now : Nat)
    (i : CodeIssue)
    (hi : i ∈ performStructuralAnalysis project now ++
      performDependencyAnalysis project now ++
      performVariableAnalysis project now ++
      performRuntimeAnalysis project now) :
    i.type ≠ .CIRCULAR_DEPENDENCY := by
  have ofEq : ∀ t : IssueType, i.type = t → t ≠ .CIRCULAR_DEPENDENCY →
      i.type ≠ .CIRCULAR_DEPENDENCY := fun t h ht => h ▸ ht
  rcases List.mem_append.mp hi with hi | hRun
  rcases List.mem_append.mp hi with hi | hVar
  rcases List.mem_append.mp hi with hStruct | hDep
  · -- structural analysis
    simp only [performStructuralAnalysis, List.mem_flatMap] at hStruct
    obtain ⟨pou, -, hi⟩ := hStruct
    rcases List.mem_append.mp hi with hi | hInit
    rcases List.mem_append.mp hi with hi | hArr
    rcases List.mem_append.mp hi with hLoop | hDiv
    · exact ofEq _ (collect_forall _ _
        (fun n j hj => loopNodeIssues_type pou.name now n j hj) pou.ast i hLoop)
        (by decide)
    · exact ofEq _ (collect_forall _ _
        (fun n j hj => divisionNodeIssues_type pou now n j hj) pou.ast i hDiv)
        (by decide)
    · exact ofEq _ (collect_forall _ _
        (fun n j hj => arrayNodeIssues_type pou now n j hj) pou.ast i hArr)
        (by decide)
    · exact absurd hInit (List.not_mem_nil i)
  · -- dependency analysis: the cycle list is empty, so only orphans remain
    simp only [performDependencyAnalysis, detectCircularDependencies,
      List.map_nil, List.nil_append, List.mem_map] at hDep
    obtain ⟨dep, -, hdef⟩ := hDep
    have ht : i.type = .POTENTIAL_IMPROVEMENT := by rw [← hdef]
    exact ofEq _ ht (by decide)
  · -- variable analysis
    simp only [performVariableAnalysis, List.mem_flatMap] at hVar
    obtain ⟨pou, -, hi⟩ := hVar
    rcases List.mem_append.mp hi with hi | hTypes
    rcases List.mem_append.mp hi with hUnused | hNaming
    · simp only [findUnusedVariables, List.map_nil] at hUnused
      exact absurd hUnused (List.not_mem_nil i)
    · exact ofEq _ (checkVariableNaming_type pou now i hNaming) (by decide)
    · exact absurd hTypes (List.not_mem_nil i)
  · -- runtime analysis
    simp only [performRuntimeAnalysis] at hRun
    split at hRun
    · exact absurd hRun (List.not_mem_nil i)
    · split at hRun
      · exact ofEq _ (analyzeErrorLogs_type _ now i hRun) (by decide)
      · exact absurd hRun (List.not_mem_nil i)

/-- One recursion step of the expression parser on `badExpr` returns to
the same input: the string is not a literal or identifier,
`isBinaryExpression` accepts it (it contains ` AND `), but ` AND ` splits
it into three parts and no other listed operator occurs, so
`parseBinaryExpression` falls through its loop into
`parseExpression(expression)` on the unchanged string. -/
theorem parseExpression_badExpr_step (fuel ln : Nat) :
    parseExpression (fuel + 1) ln badExpr = parseExpression fuel ln badExpr := rfl

/-- The expression parser never returns on `badExpr`, at any depth. -/
theorem parseExpression_badExpr_none (fuel ln : Nat) :
    parseExpression fuel ln badExpr = none := by
  induction fuel with
  | zero => rfl
  | succ n ih => rw [parseExpression_badExpr_step]; exact ih

/-- When no listed operator both occurs (spaced) in `e` and splits it into
exactly two parts, the operator loop of `parseBinaryExpression` falls
through to its final `parseExpression(expression)` call. -/
theorem tryBinaryOps_all_fail (rec : Str → Option ASTNode) (ln : Nat) (e : Str)
    (ops : List Str)
    (h : (ops.all fun op =>
      !(jsIncludes e (' ' :: (op ++ [' ']))) ||
        !((splitOnStr (' ' :: (op ++ [' '])) e).length == 2)) = true) :
    tryBinaryOps rec ln ops e = rec e := by
  induction ops with
  | nil => rfl
  | cons op rest ih =>
    rw [List.all_cons, Bool.and_eq_true] at h
    obtain ⟨h1, h2⟩ := h
    simp only [tryBinaryOps]
    by_cases hinc : jsIncludes e (' ' :: (op ++ [' '])) = true
    · rw [if_pos hinc]
      rw [hinc] at h1
      simp only [Bool.not_true, Bool.false_or, Bool.not_eq_true',
        beq_eq_false_iff_ne] at h1
      rw [if_neg h1]
      exact ih h2
    · rw [if_neg hinc]
      exact ih h2

/-- The issue list of a successful analysis is the sorted filtering of the
concatenated pass outputs. -/
theorem issuesOf_analyzeProject (projectId : Str) (project : Project)
    (request : AnalysisRequest) (aiIssues : List CodeIssue) (now : Nat) :
    issuesOf (analyzeProject projectId (some project) request aiIssues now) =
      jsSortStable sortComparator (filterIssues
        (performStructuralAnalysis project now ++
         performDependencyAnalysis project now ++
         performVariableAnalysis project now ++
         performRuntimeAnalysis project now ++
         (if request.options.includeSuggestions then aiIssues else []))
        request) := rfl

/-! ## The claims -/

/-- C1, counterexample: on the section-8 scenario input, parsing yields
the expected single variable, but the AST contains zero ForLoop nodes (the
claim says exactly one) and the loop-safety-enabled analysis reports zero
LogicError issues (the claim says exactly one): the `FOR x := 5 TO 1 DO`
header line contains `:=`, so the dispatch priority (`:=` before `FOR`)
parses it as an Assignment. -/
theorem C1_counterexample :
    parse 30 "T".toList scenarioText 0 = .ok scenarioPou ∧
    countNodesOfType .FOR_LOOP scenarioAst = 0 ∧
    ¬ countNodesOfType .FOR_LOOP scenarioAst = 1 ∧
    issuesOf (analyzeProject "p1".toList (some scenarioProject) reqAll [] 0) = [] ∧
    ¬ reportedOfType (analyzeProject "p1".toList (some scenarioProject) reqAll [] 0)
        .LOGIC_ERROR = 1 :=
  ⟨rfl, rfl, by decide, rfl, by decide⟩

/-- C1, amended: for the section-8 scenario input, parse yields exactly
one variable `x` (Local, integer type, initial value 0) as claimed, but
the body parses to three Assignment nodes — the FOR header line contains
`:=` and is dispatched to Assignment, recording target `FOR x` and value
`5 TO 1 DO` — so the AST contains no ForLoop node and the loop-safety pass
(and the whole analysis) yields no issue at all for this input. -/
theorem C1_scenario_amended :
    parse 30 "T".toList scenarioText 0 = .ok scenarioPou ∧
    scenarioPou.variables = [scenarioVariable] ∧
    scenarioVariable.scope = .LOCAL ∧
    scenarioVariable.initialValue = some (.int 0) ∧
    countNodesOfType .ASSIGNMENT scenarioAst = 3 ∧
    countNodesOfType .FOR_LOOP scenarioAst = 0 ∧
    analyzeLoops scenarioPou 0 = [] ∧
    issuesOf (analyzeProject "p1".toList (some scenarioProject) reqAll [] 0) = [] :=
  ⟨rfl, rfl, rfl, rfl, rfl, rfl, rfl, rfl⟩

/-- C2, counterexample: expression parsing does not terminate on
`a AND b AND c` — the listed operator `AND` occurs but splits the string
into three parts, no other operator matches, so `parseBinaryExpression`
falls back to `parseExpression` on the unchanged string and the two
functions call each other forever (no Variable node is ever produced). -/
theorem C2_counterexample : parseExpressionDiverges badExpr :=
  fun fuel ln => parseExpression_badExpr_none fuel ln

/-- C2, amended: literal recognition wins first; a bare identifier becomes
a Variable node; a string accepted by none of the literal, identifier and
binary-operator tests degrades to a Variable node carrying the full
(trimmed) expression text; but a string that `isBinaryExpression` accepts
while no listed operator splits it into exactly two parts makes
`parseExpression` call itself on the unchanged input — an infinite
recursion instead of the claimed degradation. -/
theorem C2_expression_parsing_amended :
    (∀ (e : Str) (ln fuel : Nat), isLiteral (jsTrim e) = true →
      parseExpression (fuel + 1) ln e =
        some (.mk .LITERAL none (some (jsTrim e)) .nil ln 1 gscope)) ∧
    (∀ (e : Str) (ln fuel : Nat), isLiteral (jsTrim e) = false →
      matchesIdent (jsTrim e) = true →
      parseExpression (fuel + 1) ln e =
        some (.mk .VARIABLE (some (jsTrim e)) none .nil ln 1 gscope)) ∧
    (∀ (e : Str) (ln fuel : Nat), isLiteral (jsTrim e) = false →
      matchesIdent (jsTrim e) = false → isBinaryExpression (jsTrim e) = false →
      parseExpression (fuel + 1) ln e =
        some (.mk .VARIABLE (some (jsTrim e)) none .nil ln 1 gscope)) ∧
    (∀ (e : Str) (ln fuel : Nat), isLiteral (jsTrim e) = false →
      matchesIdent (jsTrim e) = false → isBinaryExpression (jsTrim e) = true →
      noOperatorSplits (jsTrim e) = true →
      parseExpression (fuel + 1) ln e = parseExpression fuel ln (jsTrim e)) := by
  refine ⟨fun e ln fuel h1 => ?_, fun e ln fuel h1 h2 => ?_,
    fun e ln fuel h1 h2 h3 => ?_, fun e ln fuel h1 h2 h3 h4 => ?_⟩
  · simp [parseExpression, h1]
  · simp [parseExpression, h1, h2]
  · simp [parseExpression, h1, h2, h3]
  · simp only [parseExpression, h1, h2, h3, Bool.false_eq_true, if_false,
      if_true]
    exact tryBinaryOps_all_fail _ ln (jsTrim e) binaryOperators h4

/-- C2, witness for the amended theorem: `x+1` (no spaced operator, not a
literal, not an identifier) degrades to a Variable node carrying the full
text, and on `a AND b AND c` one recursion step returns to the same
input. -/
theorem C2_witness :
    parseExpression 1 7 "x+1".toList =
      some (.mk .VARIABLE (some "x+1".toList) none .nil 7 1 gscope) ∧
    parseExpression 1 7 badExpr = parseExpression 0 7 badExpr :=
  ⟨C2_expression_parsing_amended.2.2.1 "x+1".toList 7 0
      (by decide) (by decide) (by decide),
   C2_expression_parsing_amended.2.2.2 badExpr 7 0
      (by decide) (by decide) (by decide) (by decide)⟩

/-- C3, counterexample: on the project with units A, B, C and dependency
sets forming the cycle A to B, B to C, C to A, the analysis reports zero
CircularDependency issues, not the claimed one:
`detectCircularDependencies` is a stub returning no cycles. -/
theorem C3_counterexample :
    reportedOfType (analyzeProject "cyc".toList (some cycleProject) reqAll [] 0)
      .CIRCULAR_DEPENDENCY = 0 ∧
    ¬ reportedOfType (analyzeProject "cyc".toList (some cycleProject) reqAll [] 0)
      .CIRCULAR_DEPENDENCY = 1 :=
  ⟨rfl, by decide⟩

/-- C3, amended: for every project — in particular the three-unit cycle —
analysis with the suggestion pass disabled reports zero CircularDependency
issues, because the cycle detector is an unimplemented stub returning the
empty list and no other pass emits that issue type. -/
theorem C3_no_circular_amended (projectId : Str) (project : Project)
    (request : AnalysisRequest) (aiIssues : List CodeIssue) (now : Nat)
    (hsug : request.options.includeSuggestions = false) :
    reportedOfType (analyzeProject projectId (some project) request aiIssues now)
      .CIRCULAR_DEPENDENCY = 0 := by
  unfold reportedOfType countIssueType
  rw [issuesOf_analyzeProject, List.length_eq_zero, List.filter_eq_nil_iff]
  intro a ha
  have ha2 := mem_filterIssues_sub _ _ _ ((mem_jsSortStable _ _ _).mp ha)
  rw [hsug] at ha2
  simp only [Bool.false_eq_true, if_false, List.append_nil] at ha2
  simpa using internalPasses_no_circular project now a ha2

/-- C3, witness for the amended theorem, at the three-unit cycle. -/
theorem C3_witness :
    reportedOfType (analyzeProject "cyc2".toList (some cycleProject) reqAll [] 3)
      .CIRCULAR_DEPENDENCY = 0 :=
  C3_no_circular_amended "cyc2".toList cycleProject reqAll [] 3 rfl

/-- C4: the sort comparator's two local scores are computed from the wrong
issue (`aScore` from `b`, `bScore` from `a`), so the returned value is
`(severityScore a + confidence a) - (severityScore b + confidence b)` —
positive 340 (scaled by 100) for a Critical-0.9 issue against an Info-0.5
issue — and `Array.sort` therefore orders ASCENDING by combined score: a
full analysis run returns the Info issue before the Critical one, where
the claim requires descending order. -/
theorem C4_sort_ascending_bug :
    sortComparator criticalIssue infoIssue = 340 ∧
    jsSortStable sortComparator [criticalIssue, infoIssue] =
      [infoIssue, criticalIssue] ∧
    issuesOf (analyzeProject "e".toList (some emptyProject) reqAllSuggestions
      [criticalIssue, infoIssue] 0) = [infoIssue, criticalIssue] ∧
    ¬ issuesOf (analyzeProject "e".toList (some emptyProject) reqAllSuggestions
      [criticalIssue, infoIssue] 0) = [criticalIssue, infoIssue] :=
  ⟨rfl, rfl, rfl, by decide⟩

/-- C5, counterexample: `analyze` can fail — when the project lookup finds
nothing it throws `Project not found: <id>`, and the surrounding catch
rethrows, so the caller receives an error, not an AnalysisResult. -/
theorem C5_counterexample :
    analyzeProject "missing".toList none reqAll [] 0 =
      .error "Project not found: missing".toList := rfl

/-- C5, amended: `analyzeProject` propagates a missing-project error to
the caller (there is no isolate-and-continue handling — the only catch
rethrows); when the project lookup succeeds, all embedded passes are total
and the caller receives a structurally valid result whose counts agree
with its issue list. -/
theorem C5_analyze_amended (projectId : Str) (project : Project)
    (request : AnalysisRequest) (aiIssues : List CodeIssue) (now : Nat) :
    analyzeProject projectId none request aiIssues now =
      .error ("Project not found: ".toList ++ projectId) ∧
    ∃ r, analyzeProject projectId (some project) request aiIssues now = .ok r ∧
      r.totalIssues = r.issues.length ∧
      r.criticalIssues = (r.issues.filter (fun i => i.severity = .CRITICAL)).length ∧
      r.warnings = (r.issues.filter (fun i => i.severity = .WARNING)).length :=
  ⟨rfl, ⟨_, rfl, rfl, rfl, rfl⟩⟩

/-- C6, counterexample: two parses of identical input are not structurally
equal `POUFile` values — `lastModified` is written from the wall clock
(`new Date()`), so calls at different instants differ in that field. -/
theorem C6_counterexample :
    parse 30 "T".toList "PROGRAM T".toList 0 ≠
      parse 30 "T".toList "PROGRAM T".toList 1 := by
  intro h
  have h2 : (0 : Nat) = 1 :=
    congrArg (fun r => match r with
      | Except.ok p => p.lastModified
      | Except.error _ => 0) h
  exact absurd h2 (by decide)

/-- C6, amended: apart from the `lastModified` wall-clock timestamp, parse
is a pure function of its input: every other field of two results on
identical input is equal (at any recursion depth). -/
theorem C6_parse_deterministic_amended (fuel : Nat) (fileName content : Str)
    (now1 now2 : Nat) :
    (parse fuel fileName content now1).map POUFile.shape =
      (parse fuel fileName content now2).map POUFile.shape := by
  rcases hh : extractHeader (preprocessContent content) with _ | header <;>
    simp [parse, hh, Except.map, POUFile.shape]

/-- C7: every issue the analysis returns has a severity in the requested
severity set, a type in the requested issue-type set, and confidence at
least 0.5 (50 in the scaled-by-100 representation) — in particular,
requesting only Critical severities can never return an issue of another
severity. -/
theorem C7_filtering (projectId : Str) (findProject : Option Project)
    (request : AnalysisRequest) (aiIssues : List CodeIssue) (now : Nat)
    (i : CodeIssue)
    (hi : i ∈ issuesOf (analyzeProject projectId findProject request aiIssues now)) :
    i.severity ∈ request.options.severityLevel ∧
      i.type ∈ request.options.issueTypes ∧ 50 ≤ i.confidence := by
  cases findProject with
  | none => exact absurd hi (List.not_mem_nil i)
  | some project =>
    rw [issuesOf_analyzeProject] at hi
    exact mem_filterIssues _ _ _ ((mem_jsSortStable _ _ _).mp hi)

/-- C7, witness: the WHILE-loop advisory issue returned for
`whileProject` satisfies the filter guarantees. -/
theorem C7_witness :
    whileAdvisoryIssue.severity ∈ reqAll.options.severityLevel ∧
      whileAdvisoryIssue.type ∈ reqAll.options.issueTypes ∧
      50 ≤ whileAdvisoryIssue.confidence :=
  C7_filtering "w".toList (some whileProject) reqAll [] 0 whileAdvisoryIssue
    (by decide)

/-- C8: when the POU-declaration pattern
(`PROGRAM|FUNCTION_BLOCK|FUNCTION` followed by an identifier) has no match
in the preprocessed source text, parse fails with the typed
no-unit-declaration error and produces no `POUFile`. -/
theorem C8_header_requirement (fuel : Nat) (fileName content : Str) (now : Nat)
    (h : matchPOUDecl (preprocessContent content) 0 = none) :
    parse fuel fileName content now =
      .error "No valid POU declaration found".toList := by
  have hh : extractHeader (preprocessContent content) = none := by
    unfold extractHeader
    rw [h]
  simp [parse, hh]

/-- C8, witness: `hello world` declares no unit, so its parse fails. -/
theorem C8_witness :
    matchPOUDecl (preprocessContent "hello world".toList) 0 = none ∧
    parse 5 "f".toList "hello world".toList 0 =
      .error "No valid POU declaration found".toList :=
  ⟨by decide, C8_header_requirement 5 "f".toList "hello world".toList 0 (by decide)⟩

/-- C9: the three summary scores equal the specified formulas exactly:
complexity is `min(100, 2 x unit count + total variable count +
3 x dependency edge count)`; safety is `max(0, 100 - 10 x count of
SafetyConcern or RuntimeError issues)`; maintainability is `max(0, 100 -
5 x count of StyleViolation, UnusedVariable or CircularDependency
issues)`. -/
theorem C9_scores :
    (∀ project : Project, calculateComplexityScore project =
      min 100 (2 * project.files.length +
        (project.files.map (fun pou => pou.variables.length)).sum +
        3 * project.dependencies.edges.length)) ∧
    (∀ issues : List CodeIssue, calculateSafetyScore issues =
      max 0 (100 - 10 * (issues.countP (fun i =>
        decide (i.type = .SAFETY_CONCERN ∨ i.type = .RUNTIME_ERROR)) : Int))) ∧
    (∀ (project : Project) (issues : List CodeIssue),
      calculateMaintainabilityScore project issues =
      max 0 (100 - 5 * (issues.countP (fun i =>
        decide (i.type = .STYLE_VIOLATION ∨ i.type = .UNUSED_VARIABLE ∨
          i.type = .CIRCULAR_DEPENDENCY)) : Int))) := by
  refine ⟨fun project => ?_, fun issues => ?_, fun project issues => ?_⟩
  · unfold calculateComplexityScore
    have hsum : project.files.foldl (fun sum pou => sum + pou.variables.length) 0 =
        (project.files.map (fun pou => pou.variables.length)).sum := by
      rw [List.sum_eq_foldl, List.foldl_map]
    rw [hsum, Nat.min_comm]
    congr 1
    ring
  · unfold calculateSafetyScore
    rw [List.countP_eq_length_filter]
    ring_nf
  · unfold calculateMaintainabilityScore
    rw [List.countP_eq_length_filter]
    ring_nf

/-- C10, counterexample: a body line with two `:=` whose middle segment
makes expression parsing loop (`x := a AND b AND c := 1;`) produces no
Assignment node at all — the recursion never returns (a stack overflow in
JS), and the per-line catch drops the line. -/
theorem C10_counterexample : lineNeverParses divergingAssignLine := by
  intro fuel ln
  have h1 : parseLine fuel ln divergingAssignLine =
      parseAssignment fuel ln divergingAssignLine := rfl
  have h2 : parseAssignment fuel ln divergingAssignLine =
      (parseExpression fuel ln badExpr).map (fun rhs =>
        .mk .ASSIGNMENT (some (assignTargetOf divergingAssignLine))
          (some (assignValueOf divergingAssignLine))
          (.cons (.mk .VARIABLE (some (assignTargetOf divergingAssignLine))
            none .nil ln 1 gscope) (.cons rhs .nil)) ln 1 gscope) := rfl
  rw [h1, h2, parseExpression_badExpr_none]
  rfl

/-- The shape `parseAssignment` always gives its result (when the
right-hand expression parse returns). -/
theorem parseAssignment_eq (fuel ln : Nat) (line : Str) :
    parseAssignment fuel ln line =
      (parseExpression fuel ln (assignValueOf line)).map (fun rhs =>
        .mk .ASSIGNMENT (some (assignTargetOf line)) (some (assignValueOf line))
          (.cons (.mk .VARIABLE (some (assignTargetOf line)) none .nil ln 1 gscope)
            (.cons rhs .nil)) ln 1 gscope) := rfl

/-- C10, amended: for a body line containing `:=` two or more times, when
the expression parse of the middle segment returns, the line parses to an
Assignment node whose recorded value and right-hand child cover only the
(trimmed, first-semicolon-stripped) text between the first and second
`:=` — everything from the second `:=` on is discarded — with exactly two
children, the first a Variable named by the trimmed text left of the
first `:=`; when the middle segment's parse does not return the line
yields no node (see the counterexample). -/
theorem C10_assignment_amended (line : Str) (fuel ln : Nat) (rhs : ASTNode)
    (hmany : 3 ≤ (splitOnStr ":=".toList line).length)
    (hin : jsIncludes line ":=".toList = true)
    (hrhs : parseExpression fuel ln (assignValueOf line) = some rhs) :
    parseLine fuel ln line = some (.mk .ASSIGNMENT (some (assignTargetOf line))
      (some (assignValueOf line))
      (.cons (.mk .VARIABLE (some (assignTargetOf line)) none .nil ln 1 gscope)
        (.cons rhs .nil)) ln 1 gscope) := by
  have h1 : parseLine fuel ln line = parseAssignment fuel ln line := by
    unfold parseLine
    rw [if_pos hin]
  rw [h1, parseAssignment_eq, hrhs]
  rfl

/-- C10, witness for the amended theorem: `a := b := c;` parses to an
Assignment with target `a`, value `b`, and everything from the second
`:=` on discarded. -/
theorem C10_witness :
    parseLine 5 1 "a := b := c;".toList = some (.mk .ASSIGNMENT
      (some "a".toList) (some "b".toList)
      (.cons (.mk .VARIABLE (some "a".toList) none .nil 1 1 gscope)
        (.cons (.mk .VARIABLE (some "b".toList) none .nil 1 1 gscope) .nil))
      1 1 gscope) :=
  C10_assignment_amended "a := b := c;".toList 5 1
    (.mk .VARIABLE (some "b".toList) none .nil 1 1 gscope)
    (by decide) (by decide) rfl

end STDebugger

